import Mathlib

/-
  Verification development for the QZH TEI-XML preview parser
  (src/js/parser.js, newer variant, lines 1-1092 of the packed file).

  The JavaScript source is shallowly embedded: pure functions become Lean
  functions over String / List Char, the module-level mutable variables
  (footnoteCounter, footnotes, persons, places, organizations, terms,
  normalizedMode) become an explicit state record threaded through the
  recursive transform, and host/DOM primitives that the source relies on
  (DOM text serialization, String.prototype.localeCompare with the German
  locale, parseInt, regular expressions) are modelled by explicit Lean
  functions documented at their definitions.
-/

set_option maxHeartbeats 1600000
set_option linter.unusedVariables false

namespace QZHParser

/-! ## Basic string helpers (models of the JavaScript string primitives) -/

/-- Apostrophe character (U+0027), named to keep the source lexically simple. -/
def apos : Char := Char.ofNat 39

/-- Whitespace as recognized by JavaScript trimming and the regexp class \s
(restricted to the code points that can realistically occur here). -/
def isJsWS (c : Char) : Bool :=
  c == ' ' || c == '\t' || c == '\n' || c == '\r' ||
  c == '\x0b' || c == '\x0c' || c == '\xa0' || c == '\ufeff'

/-- Model of String.prototype.trim. -/
def trimChars (l : List Char) : List Char :=
  ((l.dropWhile isJsWS).reverse.dropWhile isJsWS).reverse

/-- Model of String.prototype.trim on Lean strings. -/
def trimS (s : String) : String := String.mk (trimChars s.data)

/-- Model of String.prototype.toLowerCase (ASCII repertoire; all the table
keys the source compares lowercased strings against are ASCII). -/
def toLowerS (s : String) : String := String.mk (s.data.map Char.toLower)

/-- Auxiliary for the model of String.prototype.split with a single-character
separator: JavaScript keeps empty fields, and splitting the empty string
yields one empty field. -/
def splitCharAux (sep : Char) : List Char → List Char → List (List Char)
  | [], acc => [acc.reverse]
  | c :: rest, acc =>
    if c = sep then acc.reverse :: splitCharAux sep rest []
    else splitCharAux sep rest (c :: acc)

/-- Model of String.prototype.split with a one-character separator. -/
def jsSplitChar (s : String) (sep : Char) : List String :=
  (splitCharAux sep s.data []).map String.mk

/-- Tokens of a string under split on the regexp of one-or-more whitespace
followed by trim and filter(Boolean), as performed by getRenditionClass:
the composite simply yields the whitespace-separated words. -/
def wordsWS : List Char → List Char → List String
  | [], acc => if acc.isEmpty then [] else [String.mk acc.reverse]
  | c :: rest, acc =>
    if isJsWS c then
      (if acc.isEmpty then wordsWS rest [] else String.mk acc.reverse :: wordsWS rest [])
    else wordsWS rest (c :: acc)

/-- Value of the longest digit prefix of a character list, or none when the
list does not start with a digit (the NaN case of parseInt). -/
def digitsPrefixVal (l : List Char) : Option Nat :=
  let ds := l.takeWhile Char.isDigit
  if ds.isEmpty then none
  else some (ds.foldl (fun a c => a * 10 + (c.toNat - 48)) 0)

/-- Model of the host parseInt(s, 10): skip leading whitespace, optional
sign, then the longest digit prefix; none models NaN. -/
def jsParseInt (s : String) : Option Int :=
  let cs := s.data.dropWhile isJsWS
  match cs with
  | [] => none
  | c :: rest =>
    if c = '-' then (digitsPrefixVal rest).map (fun n => -(n : Int))
    else if c = '+' then (digitsPrefixVal rest).map (fun n => (n : Int))
    else (digitsPrefixVal cs).map (fun n => (n : Int))

/-- Rendering of a JavaScript number inside a template literal: NaN prints
as the three characters NaN, integers print in decimal. -/
def jsNumStr : Option Int → String
  | none => "NaN"
  | some n => toString n

/-- Rendering of a possibly-undefined string inside a template literal. -/
def jsStrOrUndef : Option String → String
  | none => "undefined"
  | some s => s

/-- Model of JavaScript array indexing with a possibly-NaN index: a NaN or
negative or out-of-range index yields undefined. -/
def jsIndexStr (l : List String) (i : Option Int) : Option String :=
  match i with
  | none => none
  | some k => if k < 0 then none else l.get? k.toNat

/-! ## Escaping (parser.js lines 1066-1085) -/

/-- Expansion of one character under the escapeHTML device of the source
(setting textContent of a detached div and reading back innerHTML): the
HTML text-serialization algorithm escapes the ampersand, the angle
brackets and U+00A0, and nothing else - in particular neither quote. -/
def escChar (c : Char) : List Char :=
  if c = '&' then ['&', 'a', 'm', 'p', ';']
  else if c = '<' then ['&', 'l', 't', ';']
  else if c = '>' then ['&', 'g', 't', ';']
  else if c = '\xa0' then ['&', 'n', 'b', 's', 'p', ';']
  else [c]

/-- Model of escapeHTML (parser.js 1069-1073), which serializes text through
a detached DOM element. -/
def escapeHTML (s : String) : String := String.mk (s.data.flatMap escChar)

/-- Expansion of one character under escapeAttr (parser.js 1078-1085); the
five sequential replaces, ampersand first, are equivalent to this
character-wise map. -/
def escAttrChar (c : Char) : List Char :=
  if c = '&' then ['&', 'a', 'm', 'p', ';']
  else if c = '"' then ['&', 'q', 'u', 'o', 't', ';']
  else if c = apos then ['&', '#', '3', '9', ';']
  else if c = '<' then ['&', 'l', 't', ';']
  else if c = '>' then ['&', 'g', 't', ';']
  else [c]

/-- Model of escapeAttr (parser.js 1078-1085). -/
def escapeAttr (s : String) : String := String.mk (s.data.flatMap escAttrChar)

/-- Written from the specification wording of claim C1 (not from the code):
the escape that replaces exactly the five characters ampersand, less-than,
greater-than, double quote and apostrophe. Used only to compare the spec
text against the behaviour of the source escapeHTML. -/
def specEscapeHTML5 (s : String) : String := String.mk (s.data.flatMap escAttrChar)

/-- Standard HTML unescaping restricted to the named references relevant
here; decodes amp, lt, gt, quot, nbsp and the numeric reference 39. -/
def unescList : List Char → List Char
  | [] => []
  | c :: rest =>
    if c = '&' then
      if rest.take 4 = ['a', 'm', 'p', ';'] then '&' :: unescList (rest.drop 4)
      else if rest.take 3 = ['l', 't', ';'] then '<' :: unescList (rest.drop 3)
      else if rest.take 3 = ['g', 't', ';'] then '>' :: unescList (rest.drop 3)
      else if rest.take 5 = ['q', 'u', 'o', 't', ';'] then '"' :: unescList (rest.drop 5)
      else if rest.take 4 = ['#', '3', '9', ';'] then apos :: unescList (rest.drop 4)
      else if rest.take 5 = ['n', 'b', 's', 'p', ';'] then '\xa0' :: unescList (rest.drop 5)
      else c :: unescList rest
    else c :: unescList rest
termination_by l => l.length
decreasing_by all_goals (simp [List.length_drop]; try omega)

/-- HTML unescaping on strings. -/
def unescapeHTML (s : String) : String := String.mk (unescList s.data)

/-! ## Date formatting (parser.js 319-337) -/

/-- The twelve German month names of formatDate. -/
def monthsDE : List String :=
  ["Januar", "Februar", "März", "April", "Mai", "Juni",
   "Juli", "August", "September", "Oktober", "November", "Dezember"]

/-- Model of formatDate (parser.js 319-337): empty input yields the empty
string; an input splitting into three dash-separated fields is rendered as
day dot month year, two fields as month year, anything else is returned
unchanged.  The day goes through parseInt (NaN prints as NaN) and the
month through the table lookup (an out-of-range or NaN index prints as
undefined), exactly as the template literal of the source does. -/
def formatDate (isoDate : String) : String :=
  if isoDate = "" then ""
  else
    let parts := jsSplitChar isoDate '-'
    if parts.length = 3 then
      let day := jsParseInt (parts.getD 2 "")
      let month := jsIndexStr monthsDE ((jsParseInt (parts.getD 1 "")).map (fun x => x - 1))
      let year := parts.getD 0 ""
      jsNumStr day ++ ". " ++ jsStrOrUndef month ++ " " ++ year
    else if parts.length = 2 then
      let month := jsIndexStr monthsDE ((jsParseInt (parts.getD 1 "")).map (fun x => x - 1))
      let year := parts.getD 0 ""
      jsStrOrUndef month ++ " " ++ year
    else isoDate

/-! ## Rendition-class mapper (parser.js 857-923) -/

/-- The fixed synonym table of getRenditionClass. -/
def rendPairs : List (String × String) :=
  [("sup", "simple_superscript"),
   ("super", "simple_superscript"),
   ("superscript", "simple_superscript"),
   ("sub", "simple_subscript"),
   ("subscript", "simple_subscript"),
   ("italic", "simple_italic"),
   ("italics", "simple_italic"),
   ("bold", "simple_bold"),
   ("underline", "simple_underline"),
   ("strikethrough", "simple_strikethrough"),
   ("smallcaps", "simple_smallcaps"),
   ("small-caps", "simple_smallcaps"),
   ("allcaps", "simple_allcaps"),
   ("uppercase", "simple_allcaps"),
   ("larger", "simple_larger"),
   ("smaller", "simple_smaller"),
   ("letter-space", "simple_letterspace"),
   ("letterspace", "simple_letterspace"),
   ("letterspacing", "simple_letterspace"),
   ("spaced", "simple_letterspace"),
   ("gesperrt", "simple_letterspace"),
   ("sperrung", "simple_letterspace"),
   ("center", "simple_centre"),
   ("centre", "simple_centre"),
   ("right", "simple_right"),
   ("left", "simple_left")]

/-- Lookup in the synonym table. -/
def rendLookup (t : String) : Option String := rendPairs.lookup t

/-- Character class kept by the sanitizing replace of the simple: branch. -/
def rendSafeChar (c : Char) : Bool :=
  (('a' ≤ c && c ≤ 'z') || ('0' ≤ c && c ≤ '9') || c == '_' || c == '-')

/-- Classification of one lowercased token of the rend attribute, mirroring
the loop body of getRenditionClass: explicit simple prefixes pass through,
otherwise the token is looked up (after underscore-to-dash normalization,
then with dashes removed); unmatched tokens yield none and are dropped. -/
def classifyToken (token : String) : Option String :=
  if token.startsWith "simple:" then
    some ("simple_" ++ String.mk ((token.data.drop 7).filter rendSafeChar))
  else if token.startsWith "simple_" then some token
  else if token.startsWith "simple-" then
    some ("simple_" ++ String.mk (token.data.drop 7))
  else
    match rendLookup (String.mk (token.data.map (fun c => if c = '_' then '-' else c))) with
    | some m => some m
    | none =>
        rendLookup (String.mk ((token.data.map (fun c => if c = '_' then '-' else c)).filter
          (fun c => !(c == '-'))))

/-- Model of Array.prototype.join with a one-space separator. -/
def joinSpace : List String → String
  | [] => ""
  | [x] => x
  | x :: rest => x ++ " " ++ joinSpace rest

/-- First-occurrence deduplication, the model of Array.from(new Set(xs)). -/
def dedupFirst (seen : List String) : List String → List String
  | [] => []
  | c :: rest =>
    if c ∈ seen then dedupFirst seen rest
    else c :: dedupFirst (c :: seen) rest

/-- Model of getRenditionClass (parser.js 857-923). -/
def getRenditionClass (rend : String) : String :=
  if rend = "" then "tei-hi"
  else
    let tokens := wordsWS (toLowerS rend).data []
    let classes := tokens.filterMap classifyToken
    if classes = [] then "tei-hi"
    else joinSpace (dedupFirst [] classes)

/-! ## Entity registers and deduplication (parser.js 96-108) -/

/-- Register entry pushed by transformSemanticElement. -/
structure Entity where
  name : String
  ref : String
  role : String
deriving DecidableEq, Repr

/-- Dedup key of deduplicateEntities: ref when non-empty, else name. -/
def dedupKey (e : Entity) : String := if e.ref = "" then e.name else e.ref

/-- First pass of deduplicateEntities: the Map keeps, per key, the first
entity seen, and iterates values in first-insertion order. -/
def firstSeen (seen : List String) : List Entity → List Entity
  | [] => []
  | e :: rest =>
    if dedupKey e ∈ seen then firstSeen seen rest
    else e :: firstSeen (dedupKey e :: seen) rest

/-- Primary-strength expansion of one character under German (DIN 5007-1
dictionary) collation: umlauts fold to the base vowel, sharp s expands to
ss, letters fold to lower case. This models the collation backing the
host call localeCompare(other, de) used by the sort comparator. -/
def deExpand (c : Char) : List Char :=
  if c = 'ä' ∨ c = 'Ä' then ['a']
  else if c = 'ö' ∨ c = 'Ö' then ['o']
  else if c = 'ü' ∨ c = 'Ü' then ['u']
  else if c = 'ß' then ['s', 's']
  else [c.toLower]

/-- German collation key of a string (primary strength). -/
def deKey (s : String) : String := String.mk (s.data.flatMap deExpand)

/-- Comparator order on entities used by the sort of deduplicateEntities:
ascending name under the German collation key. -/
def deLE (a b : Entity) : Prop := deKey a.name ≤ deKey b.name

instance : DecidableRel deLE := fun a b =>
  inferInstanceAs (Decidable (deKey a.name ≤ deKey b.name))

instance : IsTotal Entity deLE := ⟨fun a b => le_total (deKey a.name) (deKey b.name)⟩

instance : IsTrans Entity deLE := ⟨fun _ _ _ h1 h2 => le_trans h1 h2⟩

instance : IsRefl Entity deLE := ⟨fun _ => le_refl _⟩

/-- Model of deduplicateEntities (parser.js 99-108): keep the first entity
per key, then sort by name under German collation.  The stable host sort
with the localeCompare comparator is modelled by the stable insertion
sort with the collation-key order. -/
def deduplicateEntities (entities : List Entity) : List Entity :=
  List.insertionSort deLE (firstSeen [] entities)

/-! ## Document tree -/

/-- Parsed XML node: a text leaf, an element (local name, attributes in
document order, child nodes in document order), or another node kind
(comment, processing instruction) which the transform renders as the
empty string. -/
inductive XNode where
  | text (s : String)
  | elem (name : String) (attrs : List (String × String)) (children : List XNode)
  | other
deriving Repr

/-- Attribute list of a node. -/
def attrsOf : XNode → List (String × String)
  | XNode.elem _ attrs _ => attrs
  | _ => []

/-- Model of getAttribute combined with the or-empty fallback the source
applies at (or is observationally equivalent at) every use site: an
absent attribute reads as the empty string. -/
def getAttr (attrs : List (String × String)) (name : String) : String :=
  match attrs.lookup name with
  | some v => v
  | none => ""

/-- Attribute read directly from a node. -/
def getAttribute (n : XNode) (name : String) : String := getAttr (attrsOf n) name

/-- Does this node satisfy the tag-name selector? -/
def isElemNamed (name : String) : XNode → Bool
  | XNode.elem nm _ _ => nm == name
  | _ => false

mutual
/-- Model of the DOM textContent property: concatenation of all descendant
text payloads. -/
def textContent : XNode → String
  | XNode.text s => s
  | XNode.elem _ _ cs => textContentList cs
  | XNode.other => ""

/-- textContent over a child list. -/
def textContentList : List XNode → String
  | [] => ""
  | c :: rest => textContent c ++ textContentList rest
end

/-! ## Traversal context

The DOM gives every node access to its ancestors and siblings; the
recursive embedding threads the equivalent data downward: whether a
teiHeader ancestor exists (isInsideHeader, parser.js 1054-1064), the
number of div ancestors (getHeadingLevel, parser.js 840-852), the parent
child-node list and the position of the node inside it (findSibling,
parser.js 1038-1049), and the parent role attribute (the cell handler). -/

structure Ctx where
  insideHeader : Bool
  divDepth : Nat
  siblings : List XNode
  selfIndex : Nat
  parentRole : String
deriving Repr

/-- insideHeader flag for the children of an element named nm. -/
def childInsideHeader (ctx : Ctx) (nm : String) : Bool :=
  ctx.insideHeader || nm == "teiHeader"

/-- div-ancestor count for the children of an element named nm. -/
def childDivDepth (ctx : Ctx) (nm : String) : Nat :=
  ctx.divDepth + (if nm = "div" then 1 else 0)

/-- Context of the caller at the document root. -/
def rootCtx : Ctx := ⟨false, 0, [], 0, ""⟩

mutual
/-- Model of element.querySelector with a tag-name selector: first
descendant (preorder, document order) with the given local name, together
with the traversal context that the DOM would give it. -/
def findDescC (name : String) (ctx : Ctx) : XNode → Option (XNode × Ctx)
  | XNode.elem nm attrs cs =>
      findInListC name (childInsideHeader ctx nm) (childDivDepth ctx nm) cs
        (getAttr attrs "role") 0 cs
  | _ => none

/-- Preorder search through a child list (carrying the sibling data of the
context under construction). -/
def findInListC (name : String) (ih : Bool) (dd : Nat) (sibs : List XNode)
    (prole : String) (i : Nat) : List XNode → Option (XNode × Ctx)
  | [] => none
  | c :: rest =>
      if isElemNamed name c then some (c, ⟨ih, dd, sibs, i, prole⟩)
      else
        match findDescC name ⟨ih, dd, sibs, i, prole⟩ c with
        | some r => some r
        | none => findInListC name ih dd sibs prole (i + 1) rest
end

mutual
/-- Model of element.querySelectorAll with a tag-name selector: all
descendants with the given local name in document order (nested matches
included), each with its context. -/
def findAllC (name : String) (ctx : Ctx) : XNode → List (XNode × Ctx)
  | XNode.elem nm attrs cs =>
      findAllListC name (childInsideHeader ctx nm) (childDivDepth ctx nm) cs
        (getAttr attrs "role") 0 cs
  | _ => []

/-- Preorder collection through a child list. -/
def findAllListC (name : String) (ih : Bool) (dd : Nat) (sibs : List XNode)
    (prole : String) (i : Nat) : List XNode → List (XNode × Ctx)
  | [] => []
  | c :: rest =>
      (if isElemNamed name c then [(c, (⟨ih, dd, sibs, i, prole⟩ : Ctx))] else []) ++
      findAllC name ⟨ih, dd, sibs, i, prole⟩ c ++
      findAllListC name ih dd sibs prole (i + 1) rest
end

mutual
/-- Context-free variant of the descendant search, used by the pure header
extraction where no traversal context is needed. -/
def findDescN (name : String) : XNode → Option XNode
  | XNode.elem _ _ cs => findInListN name cs
  | _ => none

/-- Preorder search through a child list, context-free. -/
def findInListN (name : String) : List XNode → Option XNode
  | [] => none
  | c :: rest =>
      if isElemNamed name c then some c
      else
        match findDescN name c with
        | some r => some r
        | none => findInListN name rest
end

mutual
/-- Context-free variant of querySelectorAll with a tag-name selector. -/
def findAllN (name : String) : XNode → List XNode
  | XNode.elem _ _ cs => findAllListN name cs
  | _ => []

/-- Preorder collection through a child list, context-free. -/
def findAllListN (name : String) : List XNode → List XNode
  | [] => []
  | c :: rest =>
      (if isElemNamed name c then [c] else []) ++ findAllN name c ++ findAllListN name rest
end

mutual
/-- Model of querySelector with a descendant selector of two tag names
(for example msDesc head): first descendant named inner, in document
order, having an ancestor named outer at or below the search root. -/
def findDescUnder (outer inner : String) (inOuter : Bool) : XNode → Option XNode
  | XNode.elem _ _ cs => findInListUnder outer inner inOuter cs
  | _ => none

/-- Preorder search for the descendant-combinator selector. -/
def findInListUnder (outer inner : String) (inOuter : Bool) : List XNode → Option XNode
  | [] => none
  | c :: rest =>
      if inOuter && isElemNamed inner c then some c
      else
        match findDescUnder outer inner (inOuter || isElemNamed outer c) c with
        | some r => some r
        | none => findInListUnder outer inner inOuter rest
end

/-- Entry point for the two-name descendant selector. -/
def queryPair (outer inner : String) (n : XNode) : Option XNode :=
  findDescUnder outer inner (isElemNamed outer n) n

mutual
/-- Model of querySelectorAll with a descendant selector of two tag names
(for example keywords term). -/
def findAllUnder (outer inner : String) (inOuter : Bool) : XNode → List XNode
  | XNode.elem _ _ cs => findAllListUnder outer inner inOuter cs
  | _ => []

/-- Preorder collection for the descendant-combinator selector. -/
def findAllListUnder (outer inner : String) (inOuter : Bool) : List XNode → List XNode
  | [] => []
  | c :: rest =>
      (if inOuter && isElemNamed inner c then [c] else []) ++
      findAllUnder outer inner (inOuter || isElemNamed outer c) c ++
      findAllListUnder outer inner inOuter rest
end

/-- Entry point for the two-name querySelectorAll selector. -/
def queryPairAll (outer inner : String) (n : XNode) : List XNode :=
  findAllUnder outer inner (isElemNamed outer n) n

/-- Does the node carry the attribute with exactly the given value
(the CSS attribute-value selector)? -/
def hasAttrVal (n : XNode) (attrName v : String) : Bool :=
  match n with
  | XNode.elem _ attrs _ => attrs.lookup attrName == some v
  | _ => false

mutual
/-- Model of querySelector with a tag name plus attribute-value selector
(for example filiation with type current). -/
def findDescAttrN (name attrName v : String) : XNode → Option XNode
  | XNode.elem _ _ cs => findInListAttrN name attrName v cs
  | _ => none

/-- Preorder search for the attribute-value selector. -/
def findInListAttrN (name attrName v : String) : List XNode → Option XNode
  | [] => none
  | c :: rest =>
      if isElemNamed name c && hasAttrVal c attrName v then some c
      else
        match findDescAttrN name attrName v c with
        | some r => some r
        | none => findInListAttrN name attrName v rest
end

/-- Model of document.querySelector with a tag-name selector: unlike the
element method it can also match the document element itself. -/
def docFind (root : XNode) (name : String) : Option (XNode × Ctx) :=
  if isElemNamed name root then some (root, rootCtx) else findDescC name rootCtx root

/-- Model of findSibling (parser.js 1038-1049): first element child of the
parent with the wanted name that is not the node itself; the DOM identity
test is modelled by the position in the parent child-node list. -/
def findSiblingAux (name : String) (selfIdx : Nat) : Nat → List XNode → Option XNode
  | _, [] => none
  | j, c :: rest =>
      if isElemNamed name c && !(j == selfIdx) then some c
      else findSiblingAux name selfIdx (j + 1) rest

/-- findSibling through the traversal context. -/
def findSibling (ctx : Ctx) (name : String) : Option XNode :=
  findSiblingAux name ctx.selfIndex 0 ctx.siblings

/-! ## Transform state (the module-level variables of parser.js 13-25) -/

/-- One stored footnote. -/
structure Footnote where
  number : Nat
  content : String
deriving DecidableEq, Repr

/-- The mutable module-level variables of the parser closure, threaded
explicitly: footnoteCounter, footnotes, the four entity registers, and
the normalizedMode flag. -/
structure TState where
  normalizedMode : Bool
  footnoteCounter : Nat
  footnotes : List Footnote
  persons : List Entity
  places : List Entity
  organizations : List Entity
  terms : List Entity
deriving DecidableEq, Repr

/-- State after the reset block at the top of transform (parser.js 46-56). -/
def initialState (normalized : Bool) : TState :=
  ⟨normalized, 0, [], [], [], [], []⟩

/-- Model of addFootnote (parser.js 799-805): increment the counter and
push the entry carrying the new counter value. -/
def addFootnote (content : String) (st : TState) : TState :=
  { st with
    footnoteCounter := st.footnoteCounter + 1,
    footnotes := st.footnotes ++ [⟨st.footnoteCounter + 1, content⟩] }

/-- Append an entity to the register selected by the semantic kind
(the switch of transformSemanticElement, parser.js 677-690). -/
def pushEntity (type : String) (e : Entity) (st : TState) : TState :=
  if type = "person" then { st with persons := st.persons ++ [e] }
  else if type = "place" then { st with places := st.places ++ [e] }
  else if type = "organization" then { st with organizations := st.organizations ++ [e] }
  else if type = "term" then { st with terms := st.terms ++ [e] }
  else st

/-- German label of a semantic kind (the typeLabels table, parser.js
694-701, with its or-type fallback). -/
def typeLabel (type : String) : String :=
  if type = "person" then "Person"
  else if type = "place" then "Ort"
  else if type = "organization" then "Organisation"
  else if type = "term" then "Begriff"
  else type

/-- Model of transformSemanticElement (parser.js 670-716): push the entity
built from the ref and role attributes and the trimmed text content, then
wrap the children in the annotated span. -/
def transformSemanticElement (node : XNode) (type : String) (children : String)
    (st : TState) : String × TState :=
  let ref := getAttribute node "ref"
  let role := getAttribute node "role"
  let name := trimS (textContent node)
  let st2 := pushEntity type ⟨name, ref, role⟩ st
  let tooltip := typeLabel type ++
    (if ref ≠ "" then " | Ref: " ++ ref else "") ++
    (if role ≠ "" then " | Rolle: " ++ role else "")
  ("<span class=\"semantic " ++ type ++ "\" data-tooltip=\"" ++ escapeAttr tooltip ++
     "\" data-tooltip-type=\"" ++ type ++ "\" data-ref=\"" ++ escapeAttr ref ++ "\">" ++
     children ++ "</span>", st2)

/-- Model of transformNote (parser.js 782-794): a marginal note becomes an
inline marker and leaves the footnote state alone; every other note is
registered through addFootnote and referenced by the new number. -/
def transformNote (node : XNode) (children : String) (st : TState) : String × TState :=
  if getAttribute node "place" = "margin" ∨ getAttribute node "place" = "left" ∨
      getAttribute node "place" = "right" then
    ("<span class=\"tei-note-margin text-critical\" data-tooltip=\"" ++
       escapeAttr children ++ "\" data-tooltip-type=\"note\">[*]</span>", st)
  else
    ("<span class=\"footnote-ref\" data-footnote=\"" ++
       toString (addFootnote children st).footnoteCounter ++ "\">" ++
       toString (addFootnote children st).footnoteCounter ++ "</span>",
     addFootnote children st)

/-- Model of getHeadingLevel (parser.js 840-852): two plus the number of
div ancestors, clamped at six. -/
def getHeadingLevel (ctx : Ctx) : Nat := min (2 + ctx.divDepth) 6

/-- Label lookup of buildAttributeTooltip with its name fallback. -/
def lookupLabel (labelMap : List (String × String)) (name : String) : String :=
  match labelMap.lookup name with
  | some l => l
  | none => name

/-- Model of buildAttributeTooltip (parser.js 928-941): label colon value
for every non-empty attribute, pipe-joined in attribute order. -/
def buildAttributeTooltip (node : XNode) (labelMap : List (String × String)) : String :=
  let parts := (attrsOf node).filterMap (fun a =>
    if a.2 = "" then none else some (lookupLabel labelMap a.1 ++ ": " ++ a.2))
  String.intercalate " | " parts



/-! ## Size lemmas supporting the termination of the transform -/

/-- A node found by the context-carrying descendant search is strictly
smaller than the searched node; this supports the termination of the
transform functions below. -/
theorem findDescC_sizeOf_lt (name : String) :
    ∀ (ctx : Ctx) (n : XNode) (x : XNode) (cx : Ctx),
      findDescC name ctx n = some (x, cx) → sizeOf x < sizeOf n := by
  refine findDescC.induct name
    (fun ctx n => ∀ x cx, findDescC name ctx n = some (x, cx) → sizeOf x < sizeOf n)
    (fun ih dd sibs prole i l => ∀ x cx,
      findInListC name ih dd sibs prole i l = some (x, cx) → sizeOf x < sizeOf l)
    ?_ ?_ ?_ ?_ ?_ ?_
  · intro ctx nm attrs cs ih2 x cx h
    simp only [findDescC] at h
    have := ih2 x cx h
    simp only [XNode.elem.sizeOf_spec]
    omega
  · intro t ctx hne x cx h
    cases t with
    | elem nm attrs cs => exact absurd rfl (hne nm attrs cs)
    | text s => simp [findDescC] at h
    | other => simp [findDescC] at h
  · intro ih dd sibs prole i x cx h
    simp [findInListC] at h
  · intro ih dd sibs prole i c rest hc x cx h
    simp only [findInListC, hc, if_pos] at h
    have hx : c = x := by
      have := h
      simp only [Option.some.injEq, Prod.mk.injEq] at this
      exact this.1
    subst hx
    simp only [List.cons.sizeOf_spec]
    omega
  · intro ih dd sibs prole i c rest hc r hr ih1 x cx h
    simp only [findInListC, hc, if_neg, Bool.false_eq_true, not_false_iff, hr] at h
    have hrx : r = (x, cx) := by
      simpa using h
    have := ih1 x cx (by rw [hr, hrx])
    simp only [List.cons.sizeOf_spec]
    omega
  · intro ih dd sibs prole i c rest hc hr ih1 ih2 x cx h
    simp only [findInListC, hc, if_neg, Bool.false_eq_true, not_false_iff, hr] at h
    have := ih2 x cx h
    simp only [List.cons.sizeOf_spec]
    omega

/-- The descendant search bundled with the strict-size evidence; used by
the recursive handlers so that the recursion can consume the proof.  By
findDescCB_none and findDescCB_some below it carries exactly the result
of findDescC. -/
def findDescCB (name : String) (ctx : Ctx) (n : XNode) :
    Option {r : XNode × Ctx // sizeOf r.1 < sizeOf n} :=
  match h : findDescC name ctx n with
  | some r => some ⟨r, findDescC_sizeOf_lt name ctx n r.1 r.2 h⟩
  | none => none

@[simp]
theorem findDescCB_none {name : String} {ctx : Ctx} {n : XNode}
    (h : findDescC name ctx n = none) : findDescCB name ctx n = none := by
  unfold findDescCB
  split
  next r hr => rw [h] at hr; exact absurd hr (by simp)
  next => rfl

@[simp]
theorem findDescCB_some {name : String} {ctx : Ctx} {n : XNode} {r : XNode × Ctx}
    (h : findDescC name ctx n = some r) :
    findDescCB name ctx n = some ⟨r, findDescC_sizeOf_lt name ctx n r.1 r.2 h⟩ := by
  unfold findDescCB
  split
  next r2 hr =>
    rw [h] at hr
    simp only [Option.some.injEq] at hr
    subst hr
    rfl
  next hr => rw [h] at hr; exact absurd hr (by simp)

/-! ## ISO-duration formatter (parser.js 997-1033) -/

/-- Characters matched by the regexp dot without the s flag. -/
def isRegexDot (c : Char) : Bool :=
  !(c == '\n' || c == '\r' || c == '\u2028' || c == '\u2029')

/-- Numeric value of a digit run. -/
def digitsVal (ds : List Char) : Nat :=
  ds.foldl (fun a c => a * 10 + (c.toNat - 48)) 0

/-- Model of the anchored repeat-wrapper regexp match (parser.js 1000):
capital R, an optional digit run, a slash, and a non-empty tail matched
by dot-plus.  The greedy digit run is deterministic because a slash is
not a digit. -/
def matchRepeat (s : String) : Option (String × String) :=
  match s.data with
  | 'R' :: rest =>
      (match rest.dropWhile Char.isDigit with
       | '/' :: tail =>
           if tail ≠ [] ∧ tail.all isRegexDot then
             some (String.mk (rest.takeWhile Char.isDigit), String.mk tail)
           else none
       | _ => none)
  | _ => none

/-- Read a maximal run of digit-run-plus-following-character pairs; stops
cleanly before a character that is not a digit, fails when a digit run
reaches the end of the input with no unit letter after it (then the
anchored duration regexp cannot match at all). -/
def readRun : List Char → Option (List (Nat × Char) × List Char)
  | [] => some ([], [])
  | l =>
      let ds := l.takeWhile Char.isDigit
      if h : ds.isEmpty then some ([], l)
      else
        match hr : l.dropWhile Char.isDigit with
        | [] => none
        | u :: rest2 =>
            match readRun rest2 with
            | none => none
            | some (ps, r) => some ((digitsVal ds, u.toLower) :: ps, r)
termination_by l => l.length
decreasing_by
  have hle : (l.dropWhile Char.isDigit).length ≤ l.length :=
    (List.dropWhile_sublist Char.isDigit).length_le
  rw [hr] at hle
  simp only [List.length_cons] at hle
  omega

/-- Do the unit letters of the pairs appear as a subsequence of the
allowed, ordered unit letters (each group of the regexp used at most
once, in order)? -/
def unitsInOrder : List Char → List (Nat × Char) → Bool
  | _, [] => true
  | allowed, (_, u) :: rest =>
      match allowed.dropWhile (fun a => !(a == u)) with
      | [] => false
      | _ :: restAllowed => unitsInOrder restAllowed rest

/-- Captured value of one unit letter (absent groups read as zero). -/
def unitVal (ps : List (Nat × Char)) (u : Char) : Nat :=
  match ps.find? (fun p => p.2 == u) with
  | some p => p.1
  | none => 0

/-- Model of the anchored case-insensitive duration regexp match
(parser.js 1010): P, then optional year, month, week and day groups, then
an optional T section with hour, minute and second groups; returns the
seven captured numbers or none when the input does not match. -/
def matchDuration (s : String) : Option (Nat × Nat × Nat × Nat × Nat × Nat × Nat) :=
  match s.data with
  | [] => none
  | c :: rest =>
      if c.toLower = 'p' then
        match readRun rest with
        | none => none
        | some (datePs, rest1) =>
            if unitsInOrder ['y', 'm', 'w', 'd'] datePs then
              match rest1 with
              | [] =>
                  some (unitVal datePs 'y', unitVal datePs 'm', unitVal datePs 'w',
                        unitVal datePs 'd', 0, 0, 0)
              | t :: rest2 =>
                  if t.toLower = 't' then
                    match readRun rest2 with
                    | none => none
                    | some (timePs, rest3) =>
                        if rest3 = [] ∧ unitsInOrder ['h', 'm', 's'] timePs then
                          some (unitVal datePs 'y', unitVal datePs 'm', unitVal datePs 'w',
                                unitVal datePs 'd', unitVal timePs 'h', unitVal timePs 'm',
                                unitVal timePs 's')
                        else none
                  else none
            else none
      else none

/-- German unit phrase with the pluralization of the source. -/
def durUnitPhrase (n : Nat) (singular plural : String) : String :=
  toString n ++ " " ++ (if n = 1 then singular else plural)

/-- The tail captured by the repeat wrapper is strictly shorter than the
input; this supports the termination of formatIsoDuration. -/
theorem matchRepeat_snd_length (s : String) (p : String × String)
    (h : matchRepeat s = some p) : p.2.length < s.length := by
  unfold matchRepeat at h
  split at h
  next rest heq =>
    split at h
    next tail hd =>
      split at h
      · simp only [Option.some.injEq] at h
        subst h
        have hle : (rest.dropWhile Char.isDigit).length ≤ rest.length :=
          (List.dropWhile_sublist Char.isDigit).length_le
        rw [hd] at hle
        simp only [List.length_cons] at hle
        simp only [String.length, String.mk, heq, List.length_cons]
        omega
      · exact absurd h (by simp)
    next => exact absurd h (by simp)
  next => exact absurd h (by simp)

/-- Model of formatIsoDuration (parser.js 997-1033): empty input yields the
empty string, a repeat wrapper recurses and prefixes the repetition
phrase, a matching duration lists its non-zero units pluralized in
German, and anything else is returned unchanged. -/
def formatIsoDuration (duration : String) : String :=
  if duration = "" then ""
  else
    match hm : matchRepeat duration with
    | some p =>
        let repeated := formatIsoDuration p.2
        if p.1 ≠ "" then p.1 ++ "× wiederholt (" ++ repeated ++ ")"
        else "wiederholt (" ++ repeated ++ ")"
    | none =>
        match matchDuration duration with
        | none => duration
        | some (y, mo, w, d, h, mi, s) =>
            let parts :=
              (if y ≠ 0 then [durUnitPhrase y "Jahr" "Jahre"] else []) ++
              (if mo ≠ 0 then [durUnitPhrase mo "Monat" "Monate"] else []) ++
              (if w ≠ 0 then [durUnitPhrase w "Woche" "Wochen"] else []) ++
              (if d ≠ 0 then [durUnitPhrase d "Tag" "Tage"] else []) ++
              (if h ≠ 0 then [durUnitPhrase h "Stunde" "Stunden"] else []) ++
              (if mi ≠ 0 then [durUnitPhrase mi "Minute" "Minuten"] else []) ++
              (if s ≠ 0 then [durUnitPhrase s "Sekunde" "Sekunden"] else [])
            if parts = [] then duration else String.intercalate " " parts
termination_by duration.length
decreasing_by
  exact matchRepeat_snd_length duration p hm

/-- Model of buildDateTooltip (parser.js 946-992): one of the seven date
phrases selected by attribute precedence, then calendar, type, period and
duration suffixes, pipe-joined. -/
def buildDateTooltip (node : XNode) : String :=
  let whenA := getAttribute node "when"
  let fromA := getAttribute node "from"
  let toA := getAttribute node "to"
  let notBefore := getAttribute node "notBefore"
  let notAfter := getAttribute node "notAfter"
  let calendar := getAttribute node "calendar"
  let typeA := getAttribute node "type"
  let period := getAttribute node "period"
  let durIso := (let v := getAttribute node "dur-iso"; if v = "" then getAttribute node "dur" else v)
  let datePart :=
    if whenA ≠ "" then [formatDate whenA]
    else if fromA ≠ "" ∧ toA ≠ "" then [formatDate fromA ++ " - " ++ formatDate toA]
    else if fromA ≠ "" then ["ab " ++ formatDate fromA]
    else if toA ≠ "" then ["bis " ++ formatDate toA]
    else if notBefore ≠ "" ∧ notAfter ≠ "" then
      ["zwischen " ++ formatDate notBefore ++ " und " ++ formatDate notAfter]
    else if notBefore ≠ "" then ["nicht vor " ++ formatDate notBefore]
    else if notAfter ≠ "" then ["nicht nach " ++ formatDate notAfter]
    else []
  let parts := datePart ++
    (if calendar ≠ "" then ["Kalender: " ++ calendar] else []) ++
    (if typeA ≠ "" then ["Typ: " ++ typeA] else []) ++
    (if period ≠ "" then ["Periode: " ++ period] else []) ++
    (if durIso ≠ "" then ["Dauer: " ++ formatIsoDuration durIso] else [])
  String.intercalate " | " parts

/-! ## The transform engine (parser.js 342-835)

The source computes the transformed children of every element before
dispatching on the tag name (parser.js 352); the handlers receive the
children string and the state left by that traversal.  The choice and app
handlers then re-traverse the found sub-element, exactly as the source
does (transformChoice and transformApp call transformChildren again). -/

/-- Pure part of the transformNode dispatch (parser.js 354-653): all the
switch arms that only build a string around the already-transformed
children and leave the traversal state unchanged.  The stateful arms
(semantic elements, choice, app, note, handShift) stay in transformNode
below; since every arm tests the local name against a distinct literal,
splitting the switch this way preserves its meaning exactly. -/
def pureDispatch (ctx : Ctx) (norm : Bool) (localName : String)
    (attrs : List (String × String)) (cs : List XNode) (children : String) : String :=
  if localName = "body" then
    "<div class=\"body\">" ++ children ++ "</div>"
  else if localName = "div" then
    "<div class=\"tei-div\">" ++ children ++ "</div>"
  else if localName = "p" then
    "<p class=\"tei-p\">" ++ children ++ "</p>"
  else if localName = "ab" then
    let place := getAttr attrs "place"
    let abType := toLowerS (getAttr attrs "type")
    let abClass := if place ≠ "" then "tei-ab tei-ab1" else "tei-ab"
    let abPrefix :=
      if abType = "dorsal" then
        let dorsalN := getAttr attrs "n"
        let dorsalLabel := if dorsalN ≠ "" then "S. " ++ dorsalN else "verso"
        "<span class=\"pb-marker tei-ab-dorsal-marker\" data-tooltip=\"Verso-Angabe\"" ++
          " data-tooltip-type=\"page\">[" ++ escapeHTML dorsalLabel ++ "]</span> "
      else ""
    "<div class=\"" ++ abClass ++ "\">" ++ abPrefix ++ children ++ "</div>"
  else if localName = "head" then
    if getAttr attrs "type" = "subtitle" then
      "<h2 class=\"tei-head-subtitle\">" ++ children ++ "</h2>"
    else
      "<h" ++ toString (getHeadingLevel ctx) ++ " class=\"tei-head" ++
        toString (getHeadingLevel ctx) ++ "\">" ++ children ++ "</h" ++
        toString (getHeadingLevel ctx) ++ ">"
  else if localName = "lb" then
    if norm then ""
    else if getAttr attrs "break" = "no" then "-<br>"
    else "<br>"
  else if localName = "pb" then
    let n := getAttr attrs "n"
    let facs := getAttr attrs "facs"
    let pageLabel := if n ≠ "" then "S. " ++ n else ""
    let tooltip :=
      if facs ≠ "" then
        "data-tooltip=\"Faksimile: " ++ facs ++ "\" data-tooltip-type=\"page\""
      else ""
    "<span class=\"pb-marker\" " ++ tooltip ++ ">[" ++ pageLabel ++ "]</span>"
  else if localName = "cb" then
    "<span class=\"column-break\"> | </span>"
  else if localName = "sic" then
    "<span class=\"tei-sic text-critical\" data-tooltip=\"So im Original\"" ++
      " data-tooltip-type=\"textcritical\">" ++ children ++ "</span>"
  else if localName = "corr" then
    "<span class=\"tei-corr\">" ++ children ++ "</span>"
  else if localName = "abbr" then
    let expanText :=
      match findSibling ctx "expan" with
      | some e => textContent e
      | none => ""
    let abbrTooltip :=
      if expanText ≠ "" then
        "data-tooltip=\"" ++ escapeAttr expanText ++ "\" data-tooltip-type=\"abbr\""
      else ""
    "<span class=\"tei-abbr text-critical\" " ++ abbrTooltip ++ ">" ++ children ++ "</span>"
  else if localName = "expan" then ""
  else if localName = "orig" then
    "<span class=\"tei-orig\">" ++ children ++ "</span>"
  else if localName = "reg" then ""
  else if localName = "add" then
    let addPlace := (let v := getAttr attrs "place"; if v = "" then "unbekannt" else v)
    let addHand := getAttr attrs "hand"
    let addInfo := "Hinzufügung (" ++ addPlace ++ ")" ++
      (if addHand ≠ "" then " von " ++ addHand else "")
    "<span class=\"tei-add text-critical\" data-tooltip=\"" ++ escapeAttr addInfo ++
      "\" data-tooltip-type=\"textcritical\">" ++ children ++ "</span>"
  else if localName = "del" then
    let delRend := (let v := getAttr attrs "rend"; if v = "" then "durchgestrichen" else v)
    "<span class=\"tei-del text-critical\" data-tooltip=\"Gestrichen: " ++ delRend ++
      "\" data-tooltip-type=\"textcritical\">" ++ children ++ "</span>"
  else if localName = "subst" then
    "<span class=\"tei-subst text-critical\" data-tooltip=\"Ersetzung\"" ++
      " data-tooltip-type=\"textcritical\">" ++ children ++ "</span>"
  else if localName = "supplied" then
    let suppliedSource :=
      (let v := getAttr attrs "source"; if v = "" then getAttr attrs "resp" else v)
    let suppliedReason := getAttr attrs "reason"
    let suppliedInfo := "Ergänzung" ++
      (if suppliedReason ≠ "" then ": " ++ suppliedReason else "") ++
      (if suppliedSource ≠ "" then " (" ++ suppliedSource ++ ")" else "")
    "<span class=\"tei-supplied text-critical\" data-tooltip=\"" ++
      escapeAttr suppliedInfo ++ "\" data-tooltip-type=\"textcritical\">" ++
      children ++ "</span>"
  else if localName = "unclear" then
    let unclearReason :=
      (let v := getAttr attrs "reason"; if v = "" then "unsichere Lesung" else v)
    "<span class=\"tei-unclear text-critical\" data-tooltip=\"" ++
      escapeAttr unclearReason ++ "\" data-tooltip-type=\"textcritical\">" ++
      children ++ "</span>"
  else if localName = "gap" then
    let gapReason := getAttr attrs "reason"
    let gapUnit := getAttr attrs "unit"
    let gapQuantity := getAttr attrs "quantity"
    let gapInfo := "Lücke" ++
      (if gapReason ≠ "" then ": " ++ gapReason else "") ++
      (if gapQuantity ≠ "" ∧ gapUnit ≠ "" then " (" ++ gapQuantity ++ " " ++ gapUnit ++ ")" else "")
    "<span class=\"tei-gap text-critical\" data-tooltip=\"" ++ escapeAttr gapInfo ++
      "\" data-tooltip-type=\"textcritical\"></span>"
  else if localName = "damage" then
    let damageAgent :=
      (let v := getAttr attrs "agent"; if v = "" then "Beschädigung" else v)
    "<span class=\"tei-damage text-critical\" data-tooltip=\"" ++
      escapeAttr damageAgent ++ "\" data-tooltip-type=\"textcritical\">" ++
      children ++ "</span>"
  else if localName = "space" then
    let spaceUnit := getAttr attrs "unit"
    let spaceQuantity := getAttr attrs "quantity"
    let spaceInfo :=
      if spaceQuantity ≠ "" ∧ spaceUnit ≠ "" then
        "Leerraum: " ++ spaceQuantity ++ " " ++ spaceUnit
      else "Leerraum"
    "<span class=\"tei-space text-critical\" data-tooltip=\"" ++ escapeAttr spaceInfo ++
      "\" data-tooltip-type=\"textcritical\"></span>"
  else if localName = "lem" then
    "<span class=\"tei-lem\">" ++ children ++ "</span>"
  else if localName = "rdg" then ""
  else if localName = "q" ∨ localName = "quote" then
    "<span class=\"tei-q\">" ++ children ++ "</span>"
  else if localName = "hi" then
    let hiClass := getRenditionClass (getAttr attrs "rend")
    let hiTooltip := buildAttributeTooltip (XNode.elem localName attrs cs)
      [("rend", "Darstellung"), ("hand", "Hand"), ("type", "Typ")]
    let hiClasses := if hiTooltip ≠ "" then hiClass ++ " tei-hi-annotated" else hiClass
    let hiTooltipAttr :=
      if hiTooltip ≠ "" then
        " data-tooltip=\"" ++ escapeAttr hiTooltip ++ "\" data-tooltip-type=\"textcritical\""
      else ""
    "<span class=\"" ++ hiClasses ++ "\"" ++ hiTooltipAttr ++ ">" ++ children ++ "</span>"
  else if localName = "foreign" then
    let lang := (let v := getAttr attrs "xml:lang"; if v = "" then getAttr attrs "lang" else v)
    "<span class=\"tei-foreign\" data-lang=\"" ++ lang ++ "\">" ++ children ++ "</span>"
  else if localName = "ref" then
    let target := getAttr attrs "target"
    if target.startsWith "http" then
      "<a href=\"" ++ escapeAttr target ++ "\" target=\"_blank\" rel=\"noopener\"" ++
        " class=\"ref-link\">" ++ children ++ "</a>"
    else "<span class=\"tei-ref\">" ++ children ++ "</span>"
  else if localName = "bibl" then
    if getAttr attrs "type" = "url" then
      "<a href=\"" ++ escapeAttr (trimS (textContent (XNode.elem localName attrs cs))) ++
        "\" target=\"_blank\" rel=\"noopener\" class=\"bibl-link\">" ++ children ++ "</a>"
    else "<span class=\"tei-bibl\">" ++ children ++ "</span>"
  else if localName = "figure" then
    let figType := (let v := getAttr attrs "type"; if v = "" then "Abbildung" else v)
    "<span class=\"tei-figure\" data-tooltip=\"Abbildung: " ++ escapeAttr figType ++
      "\" data-tooltip-type=\"figure\">[" ++ figType ++ "]</span>"
  else if localName = "figDesc" then
    "<span class=\"tei-figDesc\">" ++ children ++ "</span>"
  else if localName = "date" then
    let dateInfo := buildDateTooltip (XNode.elem localName attrs cs)
    if dateInfo ≠ "" then
      "<span class=\"tei-date text-critical\" data-tooltip=\"" ++ escapeAttr dateInfo ++
        "\" data-tooltip-type=\"date\">" ++ children ++ "</span>"
    else "<span class=\"tei-date\">" ++ children ++ "</span>"
  else if localName = "origDate" then
    "<span class=\"tei-origDate\">" ++ children ++ "</span>"
  else if localName = "time" then
    let timeWhen := getAttr attrs "when"
    if timeWhen ≠ "" then
      "<span class=\"tei-time text-critical\" data-tooltip=\"" ++ escapeAttr timeWhen ++
        "\" data-tooltip-type=\"time\">" ++ children ++ "</span>"
    else "<span class=\"tei-time\">" ++ children ++ "</span>"
  else if localName = "measure" then
    let measInfo :=
      (let v := getAttr attrs "quantity"; if v ≠ "" then [v] else []) ++
      (let v := getAttr attrs "unit"; if v ≠ "" then [v] else []) ++
      (let v := getAttr attrs "commodity"; if v ≠ "" then [v] else []) ++
      (let v := getAttr attrs "type"; if v ≠ "" then ["(" ++ v ++ ")"] else [])
    let measTooltip := if measInfo ≠ [] then String.intercalate " " measInfo else ""
    if measTooltip ≠ "" then
      "<span class=\"tei-measure text-critical\" data-tooltip=\"" ++
        escapeAttr measTooltip ++ "\" data-tooltip-type=\"measure\">" ++
        children ++ "</span>"
    else "<span class=\"tei-measure\">" ++ children ++ "</span>"
  else if localName = "num" then
    let numValue := getAttr attrs "value"
    if numValue ≠ "" then
      "<span class=\"tei-num text-critical\" data-tooltip=\"Wert: " ++
        escapeAttr numValue ++ "\" data-tooltip-type=\"num\">" ++ children ++ "</span>"
    else "<span class=\"tei-num\">" ++ children ++ "</span>"
  else if localName = "signed" then
    "<div class=\"tei-signed\">[Unterzeichnet:] " ++ children ++ "</div>"
  else if localName = "table" then
    "<table class=\"tei-table\">" ++ children ++ "</table>"
  else if localName = "row" then
    let rowClass := if getAttr attrs "role" = "label" then "tei-row tei-row1" else "tei-row"
    "<tr class=\"" ++ rowClass ++ "\">" ++ children ++ "</tr>"
  else if localName = "cell" then
    let cellTag := if ctx.parentRole = "label" then "th" else "td"
    "<" ++ cellTag ++ " class=\"tei-cell\">" ++ children ++ "</" ++ cellTag ++ ">"
  else if localName = "list" then
    let listTag := if getAttr attrs "type" = "ordered" then "ol" else "ul"
    "<" ++ listTag ++ " class=\"tei-list\">" ++ children ++ "</" ++ listTag ++ ">"
  else if localName = "item" then
    "<li class=\"tei-item\">" ++ children ++ "</li>"
  else if localName = "label" then
    let labelClass :=
      if getAttr attrs "type" = "keyword" then "tei-label tei-label1" else "tei-label"
    "<span class=\"" ++ labelClass ++ "\">" ++ children ++ "</span>"
  else if localName = "seg" then
    if norm then
      let segN := getAttr attrs "n"
      let segLabel :=
        if segN ≠ "" then
          "<span class=\"tei-seg-label\">[" ++ escapeHTML segN ++ "]</span> "
        else ""
      "<span class=\"tei-seg tei-seg-normalized\">" ++ segLabel ++ children ++ "</span>"
    else "<span class=\"tei-seg\">" ++ children ++ "</span>"
  else children

mutual
/-- Model of transformNode (parser.js 342-654): text nodes are
HTML-escaped, non-element non-text nodes yield the empty string, and
elements dispatch on the local name after their children have been
transformed; the stateful arms are handled here and every other arm is
delegated to pureDispatch. -/
def transformNode (ctx : Ctx) (node : XNode) (st : TState) : String × TState :=
  match node with
  | XNode.text s => (escapeHTML s, st)
  | XNode.other => ("", st)
  | XNode.elem localName attrs cs =>
    let p := transformChildren ctx (XNode.elem localName attrs cs) st
    if localName = "persName" then
      transformSemanticElement (XNode.elem localName attrs cs) "person" p.1 p.2
    else if localName = "placeName" ∨ localName = "origPlace" then
      transformSemanticElement (XNode.elem localName attrs cs) "place" p.1 p.2
    else if localName = "orgName" then
      transformSemanticElement (XNode.elem localName attrs cs) "organization" p.1 p.2
    else if localName = "term" then
      if ctx.insideHeader then (p.1, p.2)
      else transformSemanticElement (XNode.elem localName attrs cs) "term" p.1 p.2
    else if localName = "choice" then
      transformChoice ctx (XNode.elem localName attrs cs) p.2
    else if localName = "app" then
      transformApp ctx (XNode.elem localName attrs cs) p.1 p.2
    else if localName = "note" then
      transformNote (XNode.elem localName attrs cs) p.1 p.2
    else if localName = "handShift" then
      let st2 := addFootnote
        ("Handwechsel" ++
          (let v := getAttr attrs "new"; if v ≠ "" then ": " ++ v else "")) p.2
      ("<span class=\"footnote-ref\">" ++ toString st2.footnoteCounter ++ "</span>", st2)
    else
      (pureDispatch ctx st.normalizedMode localName attrs cs p.1, p.2)
termination_by (sizeOf node, 2, 0)

/-- Model of transformChildren (parser.js 659-665): concatenate the
transforms of all child nodes, each with its derived context. -/
def transformChildren (ctx : Ctx) (node : XNode) (st : TState) : String × TState :=
  match node with
  | XNode.elem nm attrs cs =>
      transformChildrenAux (childInsideHeader ctx nm) (childDivDepth ctx nm) cs
        (getAttr attrs "role") 0 cs st
  | _ => ("", st)
termination_by (sizeOf node, 0, 0)

/-- Loop of transformChildren over the remaining child-node list. -/
def transformChildrenAux (ih : Bool) (dd : Nat) (sibs : List XNode) (prole : String)
    (i : Nat) (rem : List XNode) (st : TState) : String × TState :=
  match rem with
  | [] => ("", st)
  | c :: rest =>
      let r := transformNode ⟨ih, dd, sibs, i, prole⟩ c st
      let r2 := transformChildrenAux ih dd sibs prole (i + 1) rest r.2
      (r.1 ++ r2.1, r2.2)
termination_by (sizeOf rem, 0, 0)

/-- Model of transformChoice (parser.js 721-753): the three recognized
sub-pairs in source order, rendering the first element of the pair again
(a second traversal of that subtree) with the second element text as
tooltip; without a recognized pair, the children are rendered again. -/
def transformChoice (ctx : Ctx) (node : XNode) (st : TState) : String × TState :=
  match findDescCB "sic" ctx node, findDescCB "corr" ctx node with
  | some sicr, some corrr =>
      let q := transformChildren sicr.1.2 sicr.1.1 st
      ("<span class=\"text-critical\" data-tooltip=\"Korrektur: " ++
         escapeAttr (trimS (textContent corrr.1.1)) ++
         "\" data-tooltip-type=\"textcritical\">" ++ q.1 ++ "</span>", q.2)
  | _, _ =>
    match findDescCB "abbr" ctx node, findDescCB "expan" ctx node with
    | some abbrr, some expanr =>
        let q := transformChildren abbrr.1.2 abbrr.1.1 st
        ("<span class=\"tei-abbr text-critical\" data-tooltip=\"" ++
           escapeAttr (trimS (textContent expanr.1.1)) ++
           "\" data-tooltip-type=\"abbr\">" ++ q.1 ++ "</span>", q.2)
    | _, _ =>
      match findDescCB "orig" ctx node, findDescCB "reg" ctx node with
      | some origr, some regr =>
          let q := transformChildren origr.1.2 origr.1.1 st
          ("<span class=\"text-critical\" data-tooltip=\"Normalisiert: " ++
             escapeAttr (trimS (textContent regr.1.1)) ++
             "\" data-tooltip-type=\"textcritical\">" ++ q.1 ++ "</span>", q.2)
      | _, _ => transformChildren ctx node st
termination_by (sizeOf node, 1, 0)
decreasing_by
  all_goals
    first
    | exact Prod.Lex.left _ _ sicr.2
    | exact Prod.Lex.left _ _ abbrr.2
    | exact Prod.Lex.left _ _ origr.2
    | (apply Prod.Lex.right
       exact Prod.Lex.left _ _ (by omega))

/-- Model of transformApp (parser.js 758-777): the lem child, when found,
is rendered again (a second traversal of that subtree), otherwise the
already-computed children string is used; the rdg readings build the
tooltip. -/
def transformApp (ctx : Ctx) (node : XNode) (children : String) (st : TState) :
    String × TState :=
  let rdgTexts := (findAllC "rdg" ctx node).map (fun r =>
    let wit := getAttribute r.1 "wit"
    let text := trimS (textContent r.1)
    if wit ≠ "" then wit ++ ": " ++ text else text)
  let tooltip :=
    if rdgTexts ≠ [] then "Varianten: " ++ String.intercalate "; " rdgTexts else ""
  match findDescCB "lem" ctx node with
  | some lr =>
      let q := transformChildren lr.1.2 lr.1.1 st
      if tooltip ≠ "" then
        ("<span class=\"text-critical\" data-tooltip=\"" ++ escapeAttr tooltip ++
           "\" data-tooltip-type=\"apparatus\">" ++ q.1 ++ "</span>", q.2)
      else ("<span class=\"tei-app\">" ++ q.1 ++ "</span>", q.2)
  | none =>
      if tooltip ≠ "" then
        ("<span class=\"text-critical\" data-tooltip=\"" ++ escapeAttr tooltip ++
           "\" data-tooltip-type=\"apparatus\">" ++ children ++ "</span>", st)
      else ("<span class=\"tei-app\">" ++ children ++ "</span>", st)
termination_by (sizeOf node, 1, 0)
decreasing_by
  exact Prod.Lex.left _ _ lr.2

end

/-- Loop of transformBackMatter over the collected p elements. -/
def transformPItems (ps : List (XNode × Ctx)) (st : TState) : List String × TState :=
  match ps with
  | [] => ([], st)
  | pc :: rest =>
      let q := transformChildren pc.2 pc.1 st
      let r := transformPItems rest q.2
      (q.1 :: r.1, r.2)

/-- Model of transformBackMatter (parser.js 810-835): every p inside every
div of the back matter is rendered as one item; one item becomes a single
paragraph, several items several paragraphs, and with no items at all the
children of the back node are rendered directly. -/
def transformBackMatter (ctx : Ctx) (backNode : XNode) (st : TState) : String × TState :=
  let r := transformPItems
    (((findAllC "div" ctx backNode).map (fun d => findAllC "p" d.2 d.1)).flatten) st
  let items := r.1
  if items.length > 1 then
    ("<h3>Kommentar</h3>" ++ String.join (items.map (fun it => "<p>" ++ it ++ "</p>")), r.2)
  else if items.length = 1 then
    ("<h3>Kommentar</h3>" ++ "<p>" ++ items.headD "" ++ "</p>", r.2)
  else
    let q := transformChildren ctx backNode r.2
    ("<h3>Kommentar</h3>" ++ q.1, q.2)




/-! ## Header extraction and the top-level transform (parser.js 43-314) -/

/-- Pure selection of the summary string (parser.js 272-278): the trimmed
rendering when non-empty, else the escaped trimmed text content, else the
empty string. -/
def summaryText (sr : XNode) (html : String) : String :=
  if trimS html ≠ "" then trimS html
  else if trimS (textContent sr) ≠ "" then escapeHTML (trimS (textContent sr)) else ""

/-- Model of extractSummary (parser.js 265-279): the summary children are
rendered (side effects included) and the summary string selected from the
rendering and the text content. -/
def extractSummary (root : XNode) (st : TState) : String × TState :=
  match docFind root "teiHeader" with
  | none => ("", st)
  | some hr =>
    match findDescC "summary" hr.2 hr.1 with
    | none => ("", st)
    | some sr =>
      (summaryText sr.1 (transformChildren sr.2 sr.1 st).1,
       (transformChildren sr.2 sr.1 st).2)

/-- One keyword entry of the metadata. -/
structure Keyword where
  text : String
  ref : String
deriving DecidableEq, Repr

/-- One editor entry of the metadata. -/
structure Editor where
  name : String
  role : String
deriving DecidableEq, Repr

/-- The metadata record of extractMetadata (parser.js 117-132). -/
structure Metadata where
  title : String
  idno : String
  idnoSource : String
  date : String
  dateText : String
  keywords : List Keyword
  textLang : String
  filiation : String
  filiationOriginal : String
  edition : String
  material : String
  dimensions : String
  condition : String
  seals : List String
  editors : List Editor
deriving DecidableEq, Repr

/-- Model of extractMetadata (parser.js 113-260): pure reads of the header
subtree (the metadata extraction touches none of the transform state). -/
def extractMetadata (root : XNode) : Option Metadata :=
  match docFind root "teiHeader" with
  | none => none
  | some hr =>
    let header := hr.1
    let title :=
      match (queryPair "msDesc" "head" header).orElse (fun _ => findDescN "head" header) with
      | some h => trimS (textContent h)
      | none => ""
    let idnoPair :=
      match (queryPair "msIdentifier" "idno" header).orElse (fun _ => findDescN "idno" header) with
      | some i => (trimS (textContent i), getAttribute i "source")
      | none => ("", "")
    let datePair :=
      match findDescN "origDate" header with
      | some od =>
        let d := (let w := getAttribute od "when"; if w = "" then getAttribute od "from" else w)
        let t := trimS (textContent od)
        (d, if t ≠ "" then t else formatDate d)
      | none => ("", "")
    let keywords := (queryPairAll "keywords" "term" header).map (fun t =>
      (⟨trimS (textContent t), getAttribute t "ref"⟩ : Keyword))
    let textLang :=
      match findDescN "textLang" header with
      | some t => trimS (textContent t)
      | none => ""
    let filiation :=
      match (findDescAttrN "filiation" "type" "current" header).orElse
          (fun _ => findDescN "filiation" header) with
      | some f => trimS (textContent f)
      | none => ""
    let filiationOriginal :=
      match findDescAttrN "filiation" "type" "original" header with
      | none => ""
      | some fo =>
        match findDescN "origDate" fo with
        | some odf =>
          let dateFrom := getAttribute odf "from"
          let dateTo := getAttribute odf "to"
          let dateWhen := getAttribute odf "when"
          let dateText := trimS (textContent odf)
          if dateText ≠ "" then dateText
          else if dateWhen ≠ "" then formatDate dateWhen
          else if dateFrom ≠ "" ∧ dateTo ≠ "" then
            formatDate dateFrom ++ " - " ++ formatDate dateTo
          else if dateFrom ≠ "" then "ab " ++ formatDate dateFrom
          else ""
        | none => trimS (textContent fo)
    let edition :=
      match queryPair "additional" "listBibl" header with
      | none => ""
      | some lb =>
        match findDescN "bibl" lb with
        | none => ""
        | some b => trimS (textContent b)
    let material :=
      match findDescN "material" header with
      | some m => trimS (textContent m)
      | none => ""
    let dimensions :=
      match findDescN "dimensions" header with
      | none => ""
      | some dim =>
        match findDescN "width" dim, findDescN "height" dim with
        | some w, some h =>
          let widthValue :=
            (let q := getAttribute w "quantity"; if q = "" then trimS (textContent w) else q)
          let heightValue :=
            (let q := getAttribute h "quantity"; if q = "" then trimS (textContent h) else q)
          if widthValue ≠ "" ∧ heightValue ≠ "" then
            widthValue ++ " × " ++ heightValue ++ " cm"
          else ""
        | _, _ => ""
    let condition :=
      match findDescN "condition" header with
      | some c => trimS (textContent c)
      | none => ""
    let seals := (findAllN "seal" header).map (fun sl => trimS (textContent sl))
    let editors := (findAllN "respStmt" header).filterMap (fun resp =>
      match findDescN "persName" resp with
      | none => none
      | some pn =>
        let role :=
          match findDescN "resp" resp with
          | some r => (let k := getAttribute r "key"; if k = "" then trimS (textContent r) else k)
          | none => ""
        some (⟨trimS (textContent pn), role⟩ : Editor))
    some ⟨title, idnoPair.1, idnoPair.2, datePair.1, datePair.2, keywords, textLang,
          filiation, filiationOriginal, edition, material, dimensions, condition,
          seals, editors⟩

/-- The heading record of extractHeading (parser.js 288-292). -/
structure Heading where
  title : String
  date : String
  idno : String
deriving DecidableEq, Repr

/-- Model of extractHeading (parser.js 284-314): also a pure read of the
header subtree. -/
def extractHeading (root : XNode) : Option Heading :=
  match docFind root "teiHeader" with
  | none => none
  | some hr =>
    let header := hr.1
    let title :=
      match (queryPair "msDesc" "head" header).orElse (fun _ => findDescN "head" header) with
      | some h => trimS (textContent h)
      | none => ""
    let date :=
      match findDescN "origDate" header with
      | some od =>
        let w := (let v := getAttribute od "when"; if v = "" then getAttribute od "from" else v)
        let t := trimS (textContent od)
        if t ≠ "" then t else formatDate w
      | none => ""
    let idno :=
      match (queryPair "seriesStmt" "idno" header).orElse
          (fun _ => (findAllN "idno" header).get? 1) with
      | some i => trimS (textContent i)
      | none => ""
    some ⟨title, date, idno⟩

/-- The four deduplicated registers of the transform result. -/
structure Registers where
  persons : List Entity
  places : List Entity
  organizations : List Entity
  terms : List Entity
deriving DecidableEq, Repr

/-- The transform result object (parser.js 58-71); body and back are none
when the document has no body or back element. -/
structure TResult where
  metadata : Option Metadata
  summary : String
  heading : Option Heading
  body : Option String
  back : Option String
  footnotes : List Footnote
  registers : Registers
deriving DecidableEq, Repr

/-- Model of transform (parser.js 46-94).  The source first overwrites
every module-level variable (lines 47-56), so the incoming engine state
is never read; the final values of those variables are returned as the
outgoing engine state. -/
def transform (root : XNode) (normalized : Bool) (engine : TState) : TResult × TState :=
  let st0 := initialState normalized
  let metadata := extractMetadata root
  let sq := extractSummary root st0
  let heading := extractHeading root
  let br :=
    match docFind root "body" with
    | some b =>
      let q := transformNode b.2 b.1 sq.2
      (some q.1, q.2)
    | none => ((none : Option String), sq.2)
  let kr :=
    match docFind root "back" with
    | some b =>
      let q := transformBackMatter b.2 b.1 br.2
      (some q.1, q.2)
    | none => ((none : Option String), br.2)
  let stF := kr.2
  (⟨metadata, sq.1, heading, br.1, kr.1, stF.footnotes,
    ⟨deduplicateEntities stF.persons, deduplicateEntities stF.places,
     deduplicateEntities stF.organizations, deduplicateEntities stF.terms⟩⟩, stF)



/-! ## Attribute-reading observation helpers

An HTML parser reads a double-quoted attribute value up to the next
double quote; these helpers model that read so that statements about
emitted attribute text can observe where a value ends. -/

/-- Drop everything up to and including the first occurrence of the
needle; none when the needle does not occur. -/
def dropAfterPrefix (needle : List Char) : List Char → Option (List Char)
  | [] => if needle = [] then some [] else none
  | c :: t =>
      if needle.isPrefixOf (c :: t) then some ((c :: t).drop needle.length)
      else dropAfterPrefix needle t

/-- Value of the first occurrence of a double-quoted attribute in the
string, as an HTML parser would read it: the characters after the
attribute name, equals sign and opening quote, up to the next quote. -/
def attrValueAt (s attr : String) : Option String :=
  match dropAfterPrefix (attr ++ "=\"").data s.data with
  | none => none
  | some rest => some (String.mk (rest.takeWhile (fun c => !(c == '"'))))

/-! ## Helper lemmas -/

/-- One escaped character decodes back to itself in front of any following
already-escaped material, and the decoder walks over unescaped
characters unchanged. -/
theorem unescList_escList (l : List Char) : unescList (l.flatMap escChar) = l := by
  induction l with
  | nil => simp [unescList]
  | cons c t ih =>
    by_cases h1 : c = '&'
    · subst h1
      simp [escChar, unescList, List.take, List.drop, ih]
    · by_cases h2 : c = '<'
      · subst h2
        simp [escChar, unescList, List.take, List.drop, ih]
      · by_cases h3 : c = '>'
        · subst h3
          simp [escChar, unescList, List.take, List.drop, ih]
        · by_cases h4 : c = '\xa0'
          · subst h4
            simp [escChar, unescList, List.take, List.drop, ih]
          · have he : escChar c = [c] := by
              simp [escChar, h1, h2, h3, h4]
            simp [he, unescList, h1, ih]

/-- Round trip of the text escape on strings. -/
theorem unescapeHTML_escapeHTML (s : String) : unescapeHTML (escapeHTML s) = s := by
  have h := unescList_escList s.data
  simp [unescapeHTML, escapeHTML, h]

/-- A successful lookup returns one of the stored values. -/
theorem lookup_mem_values {l : List (String × String)} {k v : String}
    (h : l.lookup k = some v) : v ∈ l.map Prod.snd := by
  induction l with
  | nil => simp [List.lookup] at h
  | cons p rest ih =>
    rw [List.lookup] at h
    cases hk : (k == p.1) with
    | true =>
      rw [hk] at h
      simp only [Option.some.injEq] at h
      subst h
      simp
    | false =>
      rw [hk] at h
      simp only [List.map, List.mem_cons]
      exact Or.inr (ih h)

/-- Every value in the rendition synonym table is non-empty. -/
theorem rendLookup_ne_empty {t m : String} (h : rendLookup t = some m) : m ≠ "" := by
  have hm := lookup_mem_values h
  have : ∀ x ∈ rendPairs.map Prod.snd, x ≠ "" := by decide
  exact this m hm

/-- Appending to a non-empty string keeps it non-empty. -/
theorem append_ne_empty_left {s t : String} (h : s ≠ "") : s ++ t ≠ "" := by
  intro hc
  apply h
  have hl : (s ++ t).length = 0 := by rw [hc]; rfl
  rw [String.length_append] at hl
  have : s.length = 0 := by omega
  cases s with
  | mk data =>
    cases data with
    | nil => rfl
    | cons c cs => simp [String.length] at this

/-- The token classifier never yields the empty string. -/
theorem classifyToken_ne_empty {t c : String} (h : classifyToken t = some c) : c ≠ "" := by
  unfold classifyToken at h
  split at h
  · simp only [Option.some.injEq] at h
    subst h
    exact append_ne_empty_left (by decide)
  next hp1 =>
    split at h
    next hp2 =>
      simp only [Option.some.injEq] at h
      subst h
      intro hc
      rw [hc] at hp2
      exact absurd hp2 (by decide)
    next hp2 =>
      split at h
      · simp only [Option.some.injEq] at h
        subst h
        exact append_ne_empty_left (by decide)
      · split at h
        next m hm =>
          simp only [Option.some.injEq] at h
          subst h
          exact rendLookup_ne_empty hm
        next hm =>
          exact rendLookup_ne_empty h

/-- Members of the deduplicated list come from the original list. -/
theorem dedupFirst_subset {seen : List String} {l : List String} :
    ∀ x ∈ dedupFirst seen l, x ∈ l := by
  induction l generalizing seen with
  | nil => simp [dedupFirst]
  | cons c rest ih =>
    intro x hx
    rw [dedupFirst] at hx
    by_cases hc : c ∈ seen
    · rw [if_pos hc] at hx
      exact List.mem_cons_of_mem c (ih x hx)
    · rw [if_neg hc] at hx
      rcases List.mem_cons.mp hx with h | h
      · exact h ▸ List.mem_cons_self c rest
      · exact List.mem_cons_of_mem c (ih x h)

/-- A join of non-empty strings over a non-empty list is non-empty. -/
theorem joinSpace_ne_empty {l : List String} (hne : l ≠ [])
    (h : ∀ x ∈ l, x ≠ "") : joinSpace l ≠ "" := by
  match l with
  | [] => exact absurd rfl hne
  | [x] => exact h x (by simp)
  | x :: y :: rest =>
    have hj : joinSpace (x :: y :: rest) = x ++ " " ++ joinSpace (y :: rest) := rfl
    rw [hj]
    exact append_ne_empty_left (append_ne_empty_left (h x (by simp)))

/-- Keys of the first-seen pass avoid the seen set, and the output is
pairwise distinct in keys. -/
theorem firstSeen_keys (seen : List String) (l : List Entity) :
    (∀ x ∈ firstSeen seen l, dedupKey x ∉ seen) ∧
    List.Pairwise (fun a b => dedupKey a ≠ dedupKey b) (firstSeen seen l) := by
  induction l generalizing seen with
  | nil => simp [firstSeen]
  | cons e rest ih =>
    rw [firstSeen]
    by_cases hk : dedupKey e ∈ seen
    · rw [if_pos hk]
      exact ih seen
    · rw [if_neg hk]
      obtain ⟨hs, hp⟩ := ih (dedupKey e :: seen)
      refine ⟨?_, ?_⟩
      · intro x hx
        rcases List.mem_cons.mp hx with h | h
        · exact h ▸ hk
        · exact fun hc => (hs x h) (List.mem_cons_of_mem _ hc)
      · refine List.pairwise_cons.mpr ⟨?_, hp⟩
        intro b hb hc
        exact (hs b hb) (hc ▸ List.mem_cons_self _ _)

/-- Every entity kept by the first-seen pass is the first entity of the
input carrying its key. -/
theorem firstSeen_find (seen : List String) (l : List Entity) :
    ∀ f ∈ firstSeen seen l,
      List.find? (fun x => dedupKey x == dedupKey f) l = some f := by
  induction l generalizing seen with
  | nil => simp [firstSeen]
  | cons e rest ih =>
    intro f hf
    rw [firstSeen] at hf
    by_cases hk : dedupKey e ∈ seen
    · rw [if_pos hk] at hf
      have hne : dedupKey e ≠ dedupKey f := by
        intro hc
        exact (firstSeen_keys seen rest).1 f hf (hc ▸ hk)
      rw [List.find?]
      have : (dedupKey e == dedupKey f) = false := by
        simp [hne]
      rw [this]
      exact ih seen f hf
    · rw [if_neg hk] at hf
      rcases List.mem_cons.mp hf with h | h
      · subst h
        rw [List.find?]
        simp
      · have hs := (firstSeen_keys (dedupKey e :: seen) rest).1 f h
        have hne : dedupKey e ≠ dedupKey f := by
          intro hc
          exact hs (hc ▸ List.mem_cons_self _ _)
        rw [List.find?]
        have : (dedupKey e == dedupKey f) = false := by
          simp [hne]
        rw [this]
        exact ih (dedupKey e :: seen) f h

/-- Every input key outside the seen set is represented in the first-seen
pass. -/
theorem firstSeen_covers (seen : List String) (l : List Entity) :
    ∀ e ∈ l, dedupKey e ∉ seen →
      ∃ g ∈ firstSeen seen l, dedupKey g = dedupKey e := by
  induction l generalizing seen with
  | nil => simp
  | cons a rest ih =>
    intro e he hs
    rw [firstSeen]
    by_cases hk : dedupKey a ∈ seen
    · rw [if_pos hk]
      rcases List.mem_cons.mp he with h | h
      · exact absurd (h ▸ hk) hs
      · exact ih seen e h hs
    · rw [if_neg hk]
      rcases List.mem_cons.mp he with h | h
      · exact ⟨a, List.mem_cons_self _ _, by rw [h]⟩
      · by_cases hae : dedupKey e = dedupKey a
        · exact ⟨a, List.mem_cons_self _ _, hae.symm⟩
        · have : dedupKey e ∉ dedupKey a :: seen := by
            intro hc
            rcases List.mem_cons.mp hc with hc1 | hc2
            · exact hae hc1
            · exact hs hc2
          obtain ⟨g, hg, hgk⟩ := ih (dedupKey a :: seen) e h this
          exact ⟨g, List.mem_cons_of_mem _ hg, hgk⟩

/-- A list with pairwise distinct keys outside the seen set passes through
the first-seen pass unchanged. -/
theorem firstSeen_id (seen : List String) (l : List Entity)
    (hseen : ∀ e ∈ l, dedupKey e ∉ seen)
    (hp : List.Pairwise (fun a b => dedupKey a ≠ dedupKey b) l) :
    firstSeen seen l = l := by
  induction l generalizing seen with
  | nil => simp [firstSeen]
  | cons e rest ih =>
    rw [firstSeen, if_neg (hseen e (List.mem_cons_self _ _))]
    obtain ⟨hhead, htail⟩ := List.pairwise_cons.mp hp
    congr 1
    apply ih
    · intro x hx
      intro hc
      rcases List.mem_cons.mp hc with hc1 | hc2
      · exact (hhead x hx) hc1.symm
      · exact (hseen x (List.mem_cons_of_mem _ hx)) hc2
    · exact htail

/-- The deduplicated register has pairwise distinct keys. -/
theorem deduplicateEntities_pairwise (entities : List Entity) :
    List.Pairwise (fun a b => dedupKey a ≠ dedupKey b) (deduplicateEntities entities) := by
  have hp := (firstSeen_keys [] entities).2
  have hperm := List.perm_insertionSort deLE (firstSeen [] entities)
  exact (hperm.pairwise_iff (fun h => Ne.symm h)).mpr hp

/-- The deduplicated register is sorted by the collation order. -/
theorem deduplicateEntities_sorted (entities : List Entity) :
    List.Sorted deLE (deduplicateEntities entities) :=
  List.sorted_insertionSort deLE (firstSeen [] entities)

/-- Membership in the deduplicated register coincides with membership in
the first-seen pass. -/
theorem mem_deduplicateEntities {entities : List Entity} {f : Entity} :
    f ∈ deduplicateEntities entities ↔ f ∈ firstSeen [] entities :=
  List.mem_insertionSort deLE

/-! ## Footnote-state evolution

FootExt st st2 says st2 extends st the way any traversal step of the
engine does: footnotes are only appended, the appended entries carry the
consecutive numbers continuing the counter, the counter advances by the
number of appended entries, and the mode flag is unchanged. -/

def FootExt (st st2 : TState) : Prop :=
  st2.normalizedMode = st.normalizedMode ∧
  ∃ d : List Footnote,
    st2.footnotes = st.footnotes ++ d ∧
    d.map Footnote.number = List.range' (st.footnoteCounter + 1) d.length ∧
    st2.footnoteCounter = st.footnoteCounter + d.length

theorem footExt_refl (st : TState) : FootExt st st :=
  ⟨rfl, [], by simp, by simp, by simp⟩

theorem footExt_trans {a b c : TState} (h1 : FootExt a b) (h2 : FootExt b c) :
    FootExt a c := by
  obtain ⟨hm1, d1, hf1, hn1, hc1⟩ := h1
  obtain ⟨hm2, d2, hf2, hn2, hc2⟩ := h2
  refine ⟨hm2.trans hm1, d1 ++ d2, ?_, ?_, ?_⟩
  · rw [hf2, hf1, List.append_assoc]
  · rw [List.map_append, hn1, hn2, hc1, List.length_append]
    have := List.range'_append (a.footnoteCounter + 1) d1.length d2.length 1
    simp only [one_mul] at this
    rw [show a.footnoteCounter + 1 + d1.length = a.footnoteCounter + d1.length + 1 by omega] at this
    rw [this, Nat.add_comm d2.length d1.length]
  · rw [hc2, hc1, List.length_append]
    omega

theorem footExt_addFootnote (content : String) (st : TState) :
    FootExt st (addFootnote content st) := by
  refine ⟨rfl, [⟨st.footnoteCounter + 1, content⟩], rfl, by simp, rfl⟩

theorem footExt_pushEntity (ty : String) (e : Entity) (st : TState) :
    FootExt st (pushEntity ty e st) := by
  unfold pushEntity
  split
  · exact ⟨rfl, [], by simp, by simp, by simp⟩
  · split
    · exact ⟨rfl, [], by simp, by simp, by simp⟩
    · split
      · exact ⟨rfl, [], by simp, by simp, by simp⟩
      · split
        · exact ⟨rfl, [], by simp, by simp, by simp⟩
        · exact footExt_refl st

theorem footExt_semantic (node : XNode) (ty ch : String) (st : TState) :
    FootExt st (transformSemanticElement node ty ch st).2 :=
  footExt_pushEntity ty _ st

theorem footExt_note (node : XNode) (ch : String) (st : TState) :
    FootExt st (transformNote node ch st).2 := by
  unfold transformNote
  split
  · exact footExt_refl st
  · exact footExt_addFootnote ch st

set_option maxHeartbeats 4000000 in
/-- The packaged evolution statement for every function of the transform
recursion, proved by induction on a size bound. -/
theorem footExt_pack : ∀ N : Nat,
    (∀ rem : List XNode, sizeOf rem ≤ N → ∀ ih dd sibs prole i st,
      FootExt st (transformChildrenAux ih dd sibs prole i rem st).2) ∧
    (∀ node : XNode, sizeOf node ≤ N → ∀ ctx st,
      FootExt st (transformChildren ctx node st).2) ∧
    (∀ node : XNode, sizeOf node ≤ N → ∀ ctx st,
      FootExt st (transformChoice ctx node st).2) ∧
    (∀ node : XNode, sizeOf node ≤ N → ∀ ctx ch st,
      FootExt st (transformApp ctx node ch st).2) ∧
    (∀ node : XNode, sizeOf node ≤ N → ∀ ctx st,
      FootExt st (transformNode ctx node st).2) := by
  intro N
  induction N with
  | zero =>
    refine ⟨?_, ?_, ?_, ?_, ?_⟩
    · intro rem h
      exfalso
      cases rem <;> simp at h
    all_goals
      intro node h
      exfalso
      cases node <;> simp at h
  | succ n ihn =>
    obtain ⟨ih4, ih3, ih5, ih2, ih1⟩ := ihn
    have q4 : ∀ rem : List XNode, sizeOf rem ≤ n + 1 → ∀ ih dd sibs prole i st,
        FootExt st (transformChildrenAux ih dd sibs prole i rem st).2 := by
      intro rem hrem ih dd sibs prole i st
      match rem with
      | [] =>
        rw [transformChildrenAux]
        exact footExt_refl st
      | c :: rest =>
        rw [transformChildrenAux]
        have hc : sizeOf c ≤ n := by
          have := hrem
          simp only [List.cons.sizeOf_spec] at this
          have hp : 0 < sizeOf rest := by
            cases rest <;> simp
          omega
        have hr : sizeOf rest ≤ n := by
          have := hrem
          simp only [List.cons.sizeOf_spec] at this
          have hp : 0 < sizeOf c := by
            cases c <;> simp
          omega
        exact footExt_trans (ih1 c hc _ st) (ih4 rest hr ih dd sibs prole (i + 1) _)
    have q3 : ∀ node : XNode, sizeOf node ≤ n + 1 → ∀ ctx st,
        FootExt st (transformChildren ctx node st).2 := by
      intro node hnode ctx st
      match node with
      | XNode.text s => simp only [transformChildren]; exact footExt_refl st
      | XNode.other => simp only [transformChildren]; exact footExt_refl st
      | XNode.elem nm attrs cs =>
        simp only [transformChildren]
        have hcs : sizeOf cs ≤ n + 1 := by
          simp only [XNode.elem.sizeOf_spec] at hnode
          omega
        exact q4 cs hcs _ _ _ _ _ st
    have q5 : ∀ node : XNode, sizeOf node ≤ n + 1 → ∀ ctx st,
        FootExt st (transformChoice ctx node st).2 := by
      intro node hnode ctx st
      rw [transformChoice]
      split
      · next hx hy =>
        rename_i sicr corrr
        exact q3 sicr.1.1 (le_of_lt (lt_of_lt_of_le sicr.2 hnode)) sicr.1.2 st
      · split
        · next hx hy =>
          rename_i abbrr expanr
          exact q3 abbrr.1.1 (le_of_lt (lt_of_lt_of_le abbrr.2 hnode)) abbrr.1.2 st
        · split
          · next hx hy =>
            rename_i origr regr
            exact q3 origr.1.1 (le_of_lt (lt_of_lt_of_le origr.2 hnode)) origr.1.2 st
          · exact q3 node hnode ctx st
    have q2 : ∀ node : XNode, sizeOf node ≤ n + 1 → ∀ ctx ch st,
        FootExt st (transformApp ctx node ch st).2 := by
      intro node hnode ctx ch st
      rw [transformApp]
      split
      · next hx =>
        rename_i lr
        have hq := q3 lr.1.1 (le_of_lt (lt_of_lt_of_le lr.2 hnode)) lr.1.2 st
        split
        · exact hq
        · exact hq
      · split
        · exact footExt_refl st
        · exact footExt_refl st
    refine ⟨q4, q3, q5, q2, ?_⟩
    intro node hnode ctx st
    match node with
    | XNode.text s => simp only [transformNode]; exact footExt_refl st
    | XNode.other => simp only [transformNode]; exact footExt_refl st
    | XNode.elem nm attrs cs =>
      rw [transformNode]
      have hch := q3 (XNode.elem nm attrs cs) hnode ctx st
      repeat' split
      · exact footExt_trans hch (footExt_semantic _ _ _ _)
      · exact footExt_trans hch (footExt_semantic _ _ _ _)
      · exact footExt_trans hch (footExt_semantic _ _ _ _)
      · exact hch
      · exact footExt_trans hch (footExt_semantic _ _ _ _)
      · exact footExt_trans hch (q5 (XNode.elem nm attrs cs) hnode ctx _)
      · exact footExt_trans hch (q2 (XNode.elem nm attrs cs) hnode ctx _ _)
      · exact footExt_trans hch (footExt_note _ _ _)
      · exact footExt_trans hch (footExt_addFootnote _ _)
      · exact hch

theorem footExt_transformNode (ctx : Ctx) (node : XNode) (st : TState) :
    FootExt st (transformNode ctx node st).2 :=
  (footExt_pack (sizeOf node)).2.2.2.2 node le_rfl ctx st

theorem footExt_transformChildren (ctx : Ctx) (node : XNode) (st : TState) :
    FootExt st (transformChildren ctx node st).2 :=
  (footExt_pack (sizeOf node)).2.1 node le_rfl ctx st

theorem footExt_transformPItems (ps : List (XNode × Ctx)) (st : TState) :
    FootExt st (transformPItems ps st).2 := by
  induction ps generalizing st with
  | nil => rw [transformPItems]; exact footExt_refl st
  | cons pc rest ih =>
    rw [transformPItems]
    exact footExt_trans (footExt_transformChildren pc.2 pc.1 st) (ih _)

theorem footExt_transformBackMatter (ctx : Ctx) (b : XNode) (st : TState) :
    FootExt st (transformBackMatter ctx b st).2 := by
  rw [transformBackMatter]
  have hp := footExt_transformPItems
    (((findAllC "div" ctx b).map (fun d => findAllC "p" d.2 d.1)).flatten) st
  repeat' split
  · exact hp
  · exact hp
  · exact footExt_trans hp (footExt_transformChildren ctx b _)

theorem footExt_extractSummary (root : XNode) (st : TState) :
    FootExt st (extractSummary root st).2 := by
  rw [extractSummary]
  repeat' split
  · exact footExt_refl st
  · exact footExt_refl st
  · exact footExt_transformChildren _ _ st

theorem footExt_transform (root : XNode) (norm : Bool) (e : TState) :
    FootExt (initialState norm) (transform root norm e).2 := by
  rw [transform]
  have h1 := footExt_extractSummary root (initialState norm)
  refine footExt_trans h1 ?_
  repeat' split
  all_goals
    first
    | exact footExt_trans (footExt_transformNode _ _ _) (footExt_transformBackMatter _ _ _)
    | exact footExt_trans (footExt_transformNode _ _ _) (footExt_refl _)
    | exact footExt_trans (footExt_refl _) (footExt_transformBackMatter _ _ _)
    | exact footExt_refl _

/-- Footnotes of a full transform run carry the numbers one to n in
order. -/
theorem transform_numbering (root : XNode) (norm : Bool) (e : TState) :
    ((transform root norm e).1.footnotes).map Footnote.number =
      List.range' 1 ((transform root norm e).1.footnotes).length := by
  obtain ⟨hm, d, hf, hn, hc⟩ := footExt_transform root norm e
  have hres : (transform root norm e).1.footnotes = (transform root norm e).2.footnotes := rfl
  have h0 : (initialState norm).footnotes = ([] : List Footnote) := rfl
  have h1 : (initialState norm).footnoteCounter = 0 := rfl
  rw [h0] at hf
  rw [h1] at hn
  rw [hres, hf, List.nil_append, hn]

/-! ## Dispatch step lemmas -/

theorem transformNode_lb (ctx : Ctx) (attrs : List (String × String)) (cs : List XNode)
    (st : TState) :
    transformNode ctx (XNode.elem "lb" attrs cs) st =
      (pureDispatch ctx st.normalizedMode "lb" attrs cs
        (transformChildren ctx (XNode.elem "lb" attrs cs) st).1,
       (transformChildren ctx (XNode.elem "lb" attrs cs) st).2) := by
  rw [transformNode]
  simp only [String.reduceEq, reduceIte, or_self, false_or, or_false, if_false, if_true]

theorem pureDispatch_lb (ctx : Ctx) (norm : Bool) (attrs : List (String × String))
    (cs : List XNode) (ch : String) :
    pureDispatch ctx norm "lb" attrs cs ch =
      if norm then "" else if getAttr attrs "break" = "no" then "-<br>" else "<br>" := by
  unfold pureDispatch
  simp only [String.reduceEq, reduceIte, or_self, false_or, or_false, if_false, if_true]

theorem transformNode_pb (ctx : Ctx) (attrs : List (String × String)) (cs : List XNode)
    (st : TState) :
    transformNode ctx (XNode.elem "pb" attrs cs) st =
      (pureDispatch ctx st.normalizedMode "pb" attrs cs
        (transformChildren ctx (XNode.elem "pb" attrs cs) st).1,
       (transformChildren ctx (XNode.elem "pb" attrs cs) st).2) := by
  rw [transformNode]
  simp only [String.reduceEq, reduceIte, or_self, false_or, or_false, if_false, if_true]

theorem pureDispatch_pb (ctx : Ctx) (norm : Bool) (attrs : List (String × String))
    (cs : List XNode) (ch : String) :
    pureDispatch ctx norm "pb" attrs cs ch =
      "<span class=\"pb-marker\" " ++
        (if getAttr attrs "facs" ≠ "" then
          "data-tooltip=\"Faksimile: " ++ getAttr attrs "facs" ++ "\" data-tooltip-type=\"page\""
        else "") ++
        ">[" ++ (if getAttr attrs "n" ≠ "" then "S. " ++ getAttr attrs "n" else "") ++
        "]</span>" := by
  unfold pureDispatch
  simp only [String.reduceEq, reduceIte, or_self, false_or, or_false, if_false, if_true]

theorem transformNode_note (ctx : Ctx) (attrs : List (String × String)) (cs : List XNode)
    (st : TState) :
    transformNode ctx (XNode.elem "note" attrs cs) st =
      transformNote (XNode.elem "note" attrs cs)
        (transformChildren ctx (XNode.elem "note" attrs cs) st).1
        (transformChildren ctx (XNode.elem "note" attrs cs) st).2 := by
  rw [transformNode]
  simp only [String.reduceEq, reduceIte, or_self, false_or, or_false, if_false, if_true]

/-! ## Claim theorems -/

/-- C1 (counterexample): the claim that the Transform Engine escapes the
five characters amp, lt, gt, quote, apostrophe in text nodes fails: for
the text node holding one double quote the engine output keeps the quote
unescaped, while the five-character escape of the specification would
produce the quot entity. -/
theorem text_escape_five_char_counterexample :
    (transformNode rootCtx (XNode.text "\"") (initialState false)).1 = "\"" ∧
    specEscapeHTML5 "\"" = "&quot;" ∧
    ("\"" : String) ≠ "&quot;" := by
  refine ⟨?_, by decide, by decide⟩
  simp only [transformNode]
  decide

/-- C1 (amended): for every text node the engine output is escapeHTML of
the payload, which escapes exactly the ampersand, the angle brackets and
U+00A0 (every other character passes through unchanged) and never the
quotes; HTML-unescaping the output recovers the original text exactly. -/
theorem text_escape_amended (ctx : Ctx) (st : TState) (s : String) :
    transformNode ctx (XNode.text s) st = (escapeHTML s, st) ∧
    unescapeHTML (escapeHTML s) = s ∧
    (∀ c : Char, c ≠ '&' → c ≠ '<' → c ≠ '>' → c ≠ '\xa0' → escChar c = [c]) ∧
    escChar '"' = ['"'] ∧ escChar apos = [apos] := by
  refine ⟨by simp only [transformNode], unescapeHTML_escapeHTML s, ?_, by decide, by decide⟩
  intro c h1 h2 h3 h4
  simp [escChar, h1, h2, h3, h4]

/-- C1 (amended, witness): the amended statement applied at a concrete
text payload and a concrete non-special character. -/
theorem text_escape_amended_witness :
    transformNode rootCtx (XNode.text "a&b") (initialState false) =
      (escapeHTML "a&b", initialState false) ∧
    unescapeHTML (escapeHTML "a&b") = "a&b" ∧
    escChar 'x' = ['x'] :=
  ⟨(text_escape_amended rootCtx (initialState false) "a&b").1,
   (text_escape_amended rootCtx (initialState false) "a&b").2.1,
   (text_escape_amended rootCtx (initialState false) "a&b").2.2.1 'x'
     (by decide) (by decide) (by decide) (by decide)⟩

/-- C2 (counterexample): formatDate does not pass "not-a-date" through
unchanged; the input splits into three dash fields, so the day goes
through parseInt (NaN) and the month lookup is undefined. -/
theorem formatDate_counterexample :
    formatDate "not-a-date" = "NaN. undefined not" ∧
    formatDate "not-a-date" ≠ "not-a-date" := by
  exact ⟨by decide, by decide⟩

/-- C2 (amended): formatDate renders "1423-03-15" and "1423-03" as the
German date strings, and an input is returned unchanged exactly when it
does not split into two or three dash-separated fields; "not-a-date"
has three fields and renders as "NaN. undefined not". -/
theorem formatDate_amended :
    formatDate "1423-03-15" = "15. März 1423" ∧
    formatDate "1423-03" = "März 1423" ∧
    (∀ s : String, (jsSplitChar s '-').length ≠ 3 → (jsSplitChar s '-').length ≠ 2 →
      formatDate s = s) ∧
    formatDate "not-a-date" = "NaN. undefined not" := by
  refine ⟨by decide, by decide, ?_, by decide⟩
  intro s h3 h2
  by_cases h0 : s = ""
  · subst h0; rfl
  · rw [formatDate, if_neg h0, if_neg h3, if_neg h2]

/-- C2 (amended, witness): the pass-through case applied at a concrete
one-field input. -/
theorem formatDate_amended_witness : formatDate "nodate" = "nodate" :=
  formatDate_amended.2.2.1 "nodate" (by decide) (by decide)

/-- Every class emitted by getRenditionClass is non-empty, so the joined
result of a non-empty class list is non-empty. -/
theorem getRenditionClass_ne_empty (rend : String) : getRenditionClass rend ≠ "" := by
  by_cases h0 : rend = ""
  · subst h0; decide
  · rw [getRenditionClass, if_neg h0]
    by_cases hc : (wordsWS (toLowerS rend).data []).filterMap classifyToken = []
    · rw [if_pos hc]; decide
    · rw [if_neg hc]
      apply joinSpace_ne_empty
      · match hm : (wordsWS (toLowerS rend).data []).filterMap classifyToken with
        | [] => exact absurd hm hc
        | c :: rest =>
          rw [dedupFirst, if_neg (List.not_mem_nil c)]
          simp
      · intro x hx
        have hx2 := dedupFirst_subset x hx
        obtain ⟨t, _, ht⟩ := List.mem_filterMap.mp hx2
        exact classifyToken_ne_empty ht

/-- C8: getRenditionClass maps "bold sup" to the two canonical classes in
first-seen order without duplicates; the empty string and every input all
of whose tokens are unrecognized yield exactly the fallback class tei-hi;
the result is never empty. -/
theorem rendition_mapper_ok :
    getRenditionClass "bold sup" = "simple_bold simple_superscript" ∧
    getRenditionClass "" = "tei-hi" ∧
    (∀ rend : String,
      (∀ t ∈ wordsWS (toLowerS rend).data [], classifyToken t = none) →
      getRenditionClass rend = "tei-hi") ∧
    (∀ rend : String, getRenditionClass rend ≠ "") := by
  refine ⟨by decide, by decide, ?_, getRenditionClass_ne_empty⟩
  intro rend h
  by_cases h0 : rend = ""
  · subst h0; decide
  · rw [getRenditionClass, if_neg h0,
      if_pos (List.filterMap_eq_nil_iff.mpr h)]

/-- C8 (witness): the all-unrecognized case applied at a concrete input
whose single token is not a recognized rendition. -/
theorem rendition_mapper_ok_witness : getRenditionClass "zzz" = "tei-hi" :=
  rendition_mapper_ok.2.2.1 "zzz" (by decide)

/-- C7: an lb element contributes nothing to the output in normalized
mode regardless of the break attribute; otherwise break equal to no
yields a hyphen immediately followed by the line break, and any other lb
yields a plain line break. -/
theorem lb_line_break_policy (ctx : Ctx) (attrs : List (String × String))
    (cs : List XNode) (st : TState) :
    (transformNode ctx (XNode.elem "lb" attrs cs) st).1 =
      (if st.normalizedMode then ""
       else if getAttr attrs "break" = "no" then "-<br>" else "<br>") := by
  rw [transformNode_lb, pureDispatch_lb]

/-- C10: the pb handler interpolates the facs value into the data-tooltip
attribute without escapeAttr; for a facs value with an embedded double
quote the emitted text differs from the escaped form the other handlers
produce, and an attribute read of the emitted text stops at the embedded
quote, truncating the value. -/
theorem pb_facs_unescaped :
    (transformNode rootCtx (XNode.elem "pb" [("n", "1"), ("facs", "x\"y")] [])
        (initialState false)).1 =
      "<span class=\"pb-marker\" data-tooltip=\"Faksimile: x\"y\"" ++
        " data-tooltip-type=\"page\">[S. 1]</span>" ∧
    escapeAttr "x\"y" = "x&quot;y" ∧
    (transformNode rootCtx (XNode.elem "pb" [("n", "1"), ("facs", "x\"y")] [])
        (initialState false)).1 ≠
      "<span class=\"pb-marker\" data-tooltip=\"Faksimile: " ++ escapeAttr "x\"y" ++
        "\" data-tooltip-type=\"page\">[S. 1]</span>" ∧
    attrValueAt
      (transformNode rootCtx (XNode.elem "pb" [("n", "1"), ("facs", "x\"y")] [])
        (initialState false)).1 "data-tooltip" = some "Faksimile: x" ∧
    attrValueAt
      ("<span class=\"pb-marker\" data-tooltip=\"Faksimile: " ++ escapeAttr "x\"y" ++
        "\" data-tooltip-type=\"page\">[S. 1]</span>") "data-tooltip" =
      some "Faksimile: x&quot;y" := by
  have h1 : (transformNode rootCtx (XNode.elem "pb" [("n", "1"), ("facs", "x\"y")] [])
      (initialState false)).1 =
      "<span class=\"pb-marker\" data-tooltip=\"Faksimile: x\"y\"" ++
        " data-tooltip-type=\"page\">[S. 1]</span>" := by
    rw [transformNode_pb, pureDispatch_pb]
    decide
  refine ⟨h1, by decide, ?_, ?_, by decide⟩
  · rw [h1]; decide
  · rw [h1]; decide

/-- C4: deduplicateEntities keeps exactly the first-seen entry per key
(key means the ref when non-empty, else the name): the output has no two
entries with the same key, every output entry is the first input entry
carrying its key (so output keys come from input keys), every input key
is represented, and the output is sorted ascending by name under the
German collation order. -/
theorem dedupe_register_ok (entities : List Entity) (e : Entity) (he : e ∈ entities)
    (f : Entity) (hf : f ∈ deduplicateEntities entities) :
    List.Pairwise (fun a b => dedupKey a ≠ dedupKey b) (deduplicateEntities entities) ∧
    List.Sorted deLE (deduplicateEntities entities) ∧
    List.find? (fun x => dedupKey x == dedupKey f) entities = some f ∧
    ∃ g ∈ deduplicateEntities entities, dedupKey g = dedupKey e := by
  refine ⟨deduplicateEntities_pairwise entities, deduplicateEntities_sorted entities, ?_, ?_⟩
  · exact firstSeen_find [] entities f (mem_deduplicateEntities.mp hf)
  · obtain ⟨g, hg, hk⟩ := firstSeen_covers [] entities e he (by simp)
    exact ⟨g, mem_deduplicateEntities.mpr hg, hk⟩

/-- C4 (witness): the dedup contract applied to a concrete two-entry
register. -/
theorem dedupe_register_ok_witness :
    List.find? (fun x => dedupKey x == dedupKey (⟨"a", "", ""⟩ : Entity))
      [(⟨"b", "", ""⟩ : Entity), ⟨"a", "", ""⟩] = some ⟨"a", "", ""⟩ ∧
    ∃ g ∈ deduplicateEntities [(⟨"b", "", ""⟩ : Entity), ⟨"a", "", ""⟩],
      dedupKey g = dedupKey (⟨"b", "", ""⟩ : Entity) :=
  ⟨(dedupe_register_ok [⟨"b", "", ""⟩, ⟨"a", "", ""⟩] ⟨"b", "", ""⟩ (by decide)
      ⟨"a", "", ""⟩ (mem_deduplicateEntities.mpr (by decide))).2.2.1,
   (dedupe_register_ok [⟨"b", "", ""⟩, ⟨"a", "", ""⟩] ⟨"b", "", ""⟩ (by decide)
      ⟨"a", "", ""⟩ (mem_deduplicateEntities.mpr (by decide))).2.2.2⟩

/-- C9: deduplicateEntities is idempotent. -/
theorem dedupe_idempotent (x : List Entity) :
    deduplicateEntities (deduplicateEntities x) = deduplicateEntities x := by
  have hp := deduplicateEntities_pairwise x
  have hs := deduplicateEntities_sorted x
  conv_lhs => rw [deduplicateEntities]
  rw [firstSeen_id [] (deduplicateEntities x) (by simp) hp]
  exact List.Sorted.insertionSort_eq hs

/-- C5: footnote numbers are assigned at visit time in document order
starting at one; the stored sequence carries the numbers one to n in
order (never reused or renumbered); a note with place margin, left or
right leaves the footnote state exactly as the traversal of its children
left it (no increment of its own), and a note without a place attribute
adds exactly one footnote numbered with the incremented counter. -/
theorem footnote_numbering_ok :
    (∀ (root : XNode) (norm : Bool) (e : TState),
      ((transform root norm e).1.footnotes).map Footnote.number =
        List.range' 1 ((transform root norm e).1.footnotes).length) ∧
    (∀ (ctx : Ctx) (attrs : List (String × String)) (cs : List XNode) (st : TState),
      (getAttr attrs "place" = "margin" ∨ getAttr attrs "place" = "left" ∨
        getAttr attrs "place" = "right") →
      (transformNode ctx (XNode.elem "note" attrs cs) st).2 =
        (transformChildren ctx (XNode.elem "note" attrs cs) st).2) ∧
    (∀ (ctx : Ctx) (attrs : List (String × String)) (cs : List XNode) (st : TState),
      getAttr attrs "place" = "" →
      (transformNode ctx (XNode.elem "note" attrs cs) st).2.footnotes =
        (transformChildren ctx (XNode.elem "note" attrs cs) st).2.footnotes ++
          [⟨(transformChildren ctx (XNode.elem "note" attrs cs) st).2.footnoteCounter + 1,
            (transformChildren ctx (XNode.elem "note" attrs cs) st).1⟩] ∧
      (transformNode ctx (XNode.elem "note" attrs cs) st).2.footnoteCounter =
        (transformChildren ctx (XNode.elem "note" attrs cs) st).2.footnoteCounter + 1) := by
  refine ⟨transform_numbering, ?_, ?_⟩
  · intro ctx attrs cs st h
    rw [transformNode_note, transformNote]
    have hp : getAttribute (XNode.elem "note" attrs cs) "place" = getAttr attrs "place" := rfl
    rw [hp, if_pos h]
  · intro ctx attrs cs st h
    rw [transformNode_note, transformNote]
    have hp : getAttribute (XNode.elem "note" attrs cs) "place" = getAttr attrs "place" := rfl
    rw [hp, h, if_neg (by decide)]
    exact ⟨rfl, rfl⟩

/-- C5 (witness): the margin and plain note cases applied to concrete
note elements. -/
theorem footnote_numbering_ok_witness :
    (transformNode rootCtx (XNode.elem "note" [("place", "margin")] [XNode.text "r"])
        (initialState false)).2 =
      (transformChildren rootCtx (XNode.elem "note" [("place", "margin")] [XNode.text "r"])
        (initialState false)).2 ∧
    (transformNode rootCtx (XNode.elem "note" [] [XNode.text "f"])
        (initialState false)).2.footnoteCounter =
      (transformChildren rootCtx (XNode.elem "note" [] [XNode.text "f"])
        (initialState false)).2.footnoteCounter + 1 :=
  ⟨footnote_numbering_ok.2.1 rootCtx [("place", "margin")] [XNode.text "r"]
      (initialState false) (by decide),
   (footnote_numbering_ok.2.2 rootCtx [] [XNode.text "f"]
      (initialState false) (by decide)).2⟩

/-- C6: transform resets every module-level variable at entry, so a
second call on the same engine instance returns exactly what a fresh
instance would return for the same document and flag: footnote numbering
restarts at one (numbers are one to n) and the registers carry no entry
from the earlier document. -/
theorem cross_document_independence (d1 d2 : XNode) (norm : Bool) (e : TState) :
    (transform d2 norm (transform d1 norm e).2).1 =
      (transform d2 norm (initialState norm)).1 ∧
    ((transform d2 norm (transform d1 norm e).2).1.footnotes).map Footnote.number =
      List.range' 1 ((transform d2 norm (transform d1 norm e).2).1.footnotes).length :=
  ⟨rfl, transform_numbering d2 norm _⟩

set_option maxHeartbeats 4000000 in
/-- C3: transformNode renders the children of every element before
dispatching (first conjunct: the choice handler runs on the state the
children traversal produced), and the choice handler with a found sic and
corr pair, like the app handler with a found lem, re-runs
transformChildren on the found subtree (second and third conjuncts, for
arbitrary documents); consequently a semantic element nested in that
subtree is pushed twice onto its entity accumulator and a single source
note there produces two footnote entries with distinct numbers within
one invocation (remaining conjuncts, for arbitrary content strings and
incoming state). -/
theorem double_traversal_side_effects (nm rf rl txt ct : String) (ctx : Ctx) (st : TState) :
    (∀ (cattrs : List (String × String)) (ccs : List XNode),
      transformNode ctx (XNode.elem "choice" cattrs ccs) st =
        transformChoice ctx (XNode.elem "choice" cattrs ccs)
          (transformChildren ctx (XNode.elem "choice" cattrs ccs) st).2) ∧
    (∀ (node : XNode) (s c : XNode) (sctx cctx : Ctx),
      findDescC "sic" ctx node = some (s, sctx) →
      findDescC "corr" ctx node = some (c, cctx) →
      transformChoice ctx node st =
        ("<span class=\"text-critical\" data-tooltip=\"Korrektur: " ++
           escapeAttr (trimS (textContent c)) ++
           "\" data-tooltip-type=\"textcritical\">" ++
           (transformChildren sctx s st).1 ++ "</span>",
         (transformChildren sctx s st).2)) ∧
    (∀ (node : XNode) (ch : String) (l : XNode) (lctx : Ctx),
      findDescC "lem" ctx node = some (l, lctx) →
      (transformApp ctx node ch st).2 = (transformChildren lctx l st).2) ∧
    ((transformNode ctx (XNode.elem "choice" []
        [XNode.elem "sic" [] [XNode.elem "persName" [("ref", rf), ("role", rl)] [XNode.text nm]],
         XNode.elem "corr" [] [XNode.text ct]]) st).2.persons =
      st.persons ++ [⟨trimS nm, rf, rl⟩, ⟨trimS nm, rf, rl⟩]) ∧
    ((transformNode ctx (XNode.elem "choice" []
        [XNode.elem "sic" [] [XNode.elem "note" [] [XNode.text txt]],
         XNode.elem "corr" [] [XNode.text ct]]) st).2.footnotes =
      st.footnotes ++ [⟨st.footnoteCounter + 1, escapeHTML txt⟩,
                       ⟨st.footnoteCounter + 2, escapeHTML txt⟩] ∧
     st.footnoteCounter + 1 ≠ st.footnoteCounter + 2) ∧
    ((transformNode ctx (XNode.elem "app" []
        [XNode.elem "lem" []
          [XNode.elem "placeName" [("ref", rf), ("role", rl)] [XNode.text nm]]]) st).2.places =
      st.places ++ [⟨trimS nm, rf, rl⟩, ⟨trimS nm, rf, rl⟩]) := by
  refine ⟨?_, ?_, ?_, ?_, ⟨?_, by omega⟩, ?_⟩
  · intro cattrs ccs
    rw [transformNode]
    simp only [String.reduceEq, reduceIte, or_self, false_or, or_false, if_false, if_true]
  · intro node s c sctx cctx hs hc
    rw [transformChoice, findDescCB_some hs, findDescCB_some hc]
  · intro node ch l lctx hl
    rw [transformApp, findDescCB_some hl]
    dsimp only
    split <;> rfl
  · simp [transformNode, transformChildren, transformChildrenAux, transformChoice,
      findDescC, findInListC, findDescCB_some, isElemNamed, childInsideHeader, childDivDepth,
      getAttr, attrsOf, getAttribute, transformSemanticElement, pushEntity,
      textContent, textContentList, List.lookup]
  · simp [transformNode, transformChildren, transformChildrenAux, transformChoice,
      findDescC, findInListC, findDescCB_some, isElemNamed, childInsideHeader, childDivDepth,
      getAttr, attrsOf, getAttribute, transformNote, addFootnote,
      textContent, textContentList, List.lookup]
  · simp [transformNode, transformChildren, transformChildrenAux, transformApp,
      findDescC, findInListC, findDescCB_some, findAllC, findAllListC,
      isElemNamed, childInsideHeader, childDivDepth,
      getAttr, attrsOf, getAttribute, transformSemanticElement, pushEntity,
      textContent, textContentList, List.lookup]

/-- C3 (witness): the re-traversal equations applied to a concrete choice
and a concrete apparatus element. -/
theorem double_traversal_side_effects_witness :
    transformChoice rootCtx
        (XNode.elem "choice" [] [XNode.elem "sic" [] [XNode.text "s"],
                                 XNode.elem "corr" [] [XNode.text "c"]])
        (initialState false) =
      ("<span class=\"text-critical\" data-tooltip=\"Korrektur: " ++
         escapeAttr (trimS (textContent (XNode.elem "corr" [] [XNode.text "c"]))) ++
         "\" data-tooltip-type=\"textcritical\">" ++
         (transformChildren ⟨false, 0, [XNode.elem "sic" [] [XNode.text "s"],
             XNode.elem "corr" [] [XNode.text "c"]], 0, ""⟩
           (XNode.elem "sic" [] [XNode.text "s"]) (initialState false)).1 ++ "</span>",
       (transformChildren ⟨false, 0, [XNode.elem "sic" [] [XNode.text "s"],
           XNode.elem "corr" [] [XNode.text "c"]], 0, ""⟩
         (XNode.elem "sic" [] [XNode.text "s"]) (initialState false)).2) ∧
    (transformApp rootCtx
        (XNode.elem "app" [] [XNode.elem "lem" [] [XNode.text "l"]]) "ch"
        (initialState false)).2 =
      (transformChildren ⟨false, 0, [XNode.elem "lem" [] [XNode.text "l"]], 0, ""⟩
        (XNode.elem "lem" [] [XNode.text "l"]) (initialState false)).2 :=
  ⟨(double_traversal_side_effects "" "" "" "" "" rootCtx (initialState false)).2.1
      (XNode.elem "choice" [] [XNode.elem "sic" [] [XNode.text "s"],
                               XNode.elem "corr" [] [XNode.text "c"]])
      (XNode.elem "sic" [] [XNode.text "s"]) (XNode.elem "corr" [] [XNode.text "c"])
      ⟨false, 0, [XNode.elem "sic" [] [XNode.text "s"], XNode.elem "corr" [] [XNode.text "c"]], 0, ""⟩
      ⟨false, 0, [XNode.elem "sic" [] [XNode.text "s"], XNode.elem "corr" [] [XNode.text "c"]], 1, ""⟩
      (by simp [findDescC, findInListC, isElemNamed, childInsideHeader, childDivDepth, getAttr, attrsOf, rootCtx])
      (by simp [findDescC, findInListC, isElemNamed, childInsideHeader, childDivDepth, getAttr, attrsOf, rootCtx]),
   (double_traversal_side_effects "" "" "" "" "" rootCtx (initialState false)).2.2.1
      (XNode.elem "app" [] [XNode.elem "lem" [] [XNode.text "l"]]) "ch"
      (XNode.elem "lem" [] [XNode.text "l"])
      ⟨false, 0, [XNode.elem "lem" [] [XNode.text "l"]], 0, ""⟩
      (by simp [findDescC, findInListC, isElemNamed, childInsideHeader, childDivDepth, getAttr, attrsOf, rootCtx])⟩

end QZHParser
